import Mathlib

/-!
A shallow embedding of the ent-backend relation ingestion and query code of
the guac repository (files `pkg/assembler/backends/ent/backend/occurrence.go`,
`dependency.go`, `sbom.go`), together with proofs settling the frozen claims
about it.

Go functions are translated into pure Lean functions over an explicit store
state (`DB`).  Fallible calls return an `Outcome`; a Go runtime panic (index
out of range, nil-pointer dereference) is the `Outcome.panic` constructor, a
returned `error` is `Outcome.error` carrying the formatted message.  A
transaction (`WithinTX`) that fails rolls back: an ingestion that returns
`Outcome.error` leaves the caller's `DB` untouched, which the types express by
only returning a new `DB` on success.
-/

namespace Guac

/-- Result of a Go call: normal return, returned error, or runtime panic. -/
inductive Outcome (α : Type) where
  | ok : α → Outcome α
  | error : String → Outcome α
  | panic : String → Outcome α
deriving DecidableEq, Repr

namespace Outcome

def isOk {α : Type} : Outcome α → Bool
  | .ok _ => true
  | _ => false

def isError {α : Type} : Outcome α → Bool
  | .error _ => true
  | _ => false

end Outcome

/-! ## Input model (graphql model structs) -/

/-- `model.PkgInputSpec`: the full identity path of a package version.
Namespace and subpath are canonicalized to the empty string when absent
(spec §3: "empty string is the canonical no-namespace value"). -/
structure PkgInput where
  ptype : String
  pnamespace : String
  pname : String
  version : Option String
  qualifiers : List (String × String)
  subpath : String
deriving DecidableEq, Repr

/-- `model.SourceInputSpec`: type/namespace/name plus optional commit and tag,
all part of identity. -/
structure SourceInput where
  stype : String
  snamespace : String
  sname : String
  commit : Option String
  tag : Option String
deriving DecidableEq, Repr

/-- `model.ArtifactInputSpec`: algorithm and digest. -/
structure ArtifactInput where
  algorithm : String
  digest : String
deriving DecidableEq, Repr

/-- `model.PackageOrSourceInput`: polymorphic subject of an Occurrence. -/
structure PackageOrSourceInput where
  package : Option PkgInput
  source : Option SourceInput
deriving DecidableEq, Repr

/-- `model.PackageOrSourceInputs`: parallel slices for batch ingestion. -/
structure PackageOrSourceInputs where
  packages : List PkgInput
  sources : List SourceInput
deriving DecidableEq, Repr

/-- `model.PackageOrArtifactInput`: polymorphic subject of an SBOM. -/
structure PackageOrArtifactInput where
  package : Option PkgInput
  artifact : Option ArtifactInput
deriving DecidableEq, Repr

/-- `model.PackageOrArtifactInputs`: parallel slices for batch ingestion. -/
structure PackageOrArtifactInputs where
  packages : List PkgInput
  artifacts : List ArtifactInput
deriving DecidableEq, Repr

/-- `model.IsOccurrenceInputSpec`. -/
structure IsOccurrenceInputSpec where
  justification : String
  origin : String
  collector : String
deriving DecidableEq, Repr

/-- `model.DependencyType` (graphql model enum). -/
inductive DependencyType where
  | direct
  | indirect
  | unknown
deriving DecidableEq, Repr

/-- `dependency.DependencyType` (ent row enum). -/
inductive RowDependencyType where
  | DIRECT
  | INDIRECT
  | UNKNOWN
deriving DecidableEq, Repr

/-- `model.PkgMatchType` inside `model.MatchFlags`. -/
inductive PkgMatchType where
  | allVersions
  | specificVersion
deriving DecidableEq, Repr

/-- `model.MatchFlags`. -/
structure MatchFlags where
  pkg : PkgMatchType
deriving DecidableEq, Repr

/-- `model.IsDependencyInputSpec`. -/
structure IsDependencyInputSpec where
  versionRange : String
  dependencyType : DependencyType
  justification : String
  origin : String
  collector : String
deriving DecidableEq, Repr

/-- `model.HasSBOMInputSpec`.  `knownSince` is a UTC timestamp, embedded as an
integer. -/
structure HasSBOMInputSpec where
  uri : String
  algorithm : String
  digest : String
  downloadLocation : String
  origin : String
  collector : String
  knownSince : Int
deriving DecidableEq, Repr

/-- `model.HasSBOMIncludesInputSpec`: four lists of node identifiers of
already-ingested entities. -/
structure HasSBOMIncludesInputSpec where
  packages : List Nat
  artifacts : List Nat
  dependencies : List Nat
  occurrences : List Nat
deriving DecidableEq, Repr

/-! ## Store rows and state -/

/-- An `ent` artifact row: identified by (algorithm, digest), stored
lowercase. -/
structure ArtRow where
  id : Nat
  algorithm : String
  digest : String
deriving DecidableEq, Repr

/-- A canonical package-version node, keyed by its full identity path. -/
structure PkgVersionRow where
  id : Nat
  pkg : PkgInput
deriving DecidableEq, Repr

/-- A canonical package-name node, keyed by (type, namespace, name). -/
structure PkgNameRow where
  id : Nat
  ptype : String
  pnamespace : String
  pname : String
deriving DecidableEq, Repr

/-- A canonical source-name node, keyed by the full source identity. -/
structure SourceRow where
  id : Nat
  src : SourceInput
deriving DecidableEq, Repr

/-- An `ent` occurrence row.  Exactly one of `packageID`/`sourceID` should be
populated; the partial unique indexes are scoped by which one is. -/
structure OccRow where
  id : Nat
  artifactID : Nat
  packageID : Option Nat
  sourceID : Option Nat
  justification : String
  origin : String
  collector : String
deriving DecidableEq, Repr

/-- An `ent` dependency row. -/
structure DepRow where
  id : Nat
  packageID : Nat
  versionRange : String
  dependencyType : RowDependencyType
  justification : String
  origin : String
  collector : String
  dependentPackageNameID : Option Nat
  dependentPackageVersionID : Option Nat
deriving DecidableEq, Repr

/-- An `ent` bill-of-materials row. -/
structure SbomRow where
  id : Nat
  uri : String
  algorithm : String
  digest : String
  downloadLocation : String
  knownSince : Int
  origin : String
  collector : String
  packageID : Option Nat
  artifactID : Option Nat
  includedPackages : List Nat
  includedArtifacts : List Nat
  includedDependencies : List Nat
  includedOccurrences : List Nat
deriving DecidableEq, Repr

/-- The relational store: one list per table, plus the next surrogate key to
assign.  Lists are kept in insertion order with ascending ids. -/
structure DB where
  nextID : Nat
  artifacts : List ArtRow
  pkgVersions : List PkgVersionRow
  pkgNames : List PkgNameRow
  sources : List SourceRow
  occurrences : List OccRow
  dependencies : List DepRow
  sboms : List SbomRow
deriving DecidableEq, Repr

/-- The store with no rows at all. -/
def DB.empty : DB :=
  { nextID := 1, artifacts := [], pkgVersions := [], pkgNames := [],
    sources := [], occurrences := [], dependencies := [], sboms := [] }

/-! ## Shared helpers -/

/-- `nodeID`: Modelled from the spec: node identifiers are "opaque,
store-assigned, stable integers or equivalent surrogate keys", rendered as
strings at the API boundary (`strconv.Itoa`). -/
def nodeID (i : Nat) : String := toString i

/-- Semantics of ent's `Only`/`OnlyID` terminator: exactly one match returns
it, zero matches is a not-found error, several matches a not-singular
error. -/
def onlyRow {α : Type} (name : String) : List α → Outcome α
  | [r] => .ok r
  | [] => .error ("ent: " ++ name ++ " not found")
  | _ => .error ("ent: " ++ name ++ " not singular")

/-- `strings.ToLower`: Modelled from the spec (§3): case normalization to
lowercase, applied character-wise. -/
def strToLower (s : String) : String := ⟨s.data.map Char.toLower⟩

/-- `artifactQueryInputPredicates`: Modelled from the spec: artifacts are
"identified by the pair (algorithm, digest), both case-normalized to
lowercase before any lookup or write" (§3). -/
def artifactQueryInputPredicates (a : ArtifactInput) (r : ArtRow) : Bool :=
  r.algorithm == strToLower a.algorithm && r.digest == strToLower a.digest

/-- `getPkgVersion`: Modelled from the spec (§4.1, Identity Resolver, absent
from src/): find-or-create the canonical package-version node keyed by the
full identity path, erroring when the description is structurally invalid
("a version-level request with no version-string"). -/
def getPkgVersion (db : DB) (p : PkgInput) : Outcome (Nat × DB) :=
  match p.version with
  | none => .error "version-level request with no version-string"
  | some _ =>
    match db.pkgVersions.find? (fun r => r.pkg == p) with
    | some r => .ok (r.id, db)
    | none =>
      .ok (db.nextID,
        { db with nextID := db.nextID + 1,
                  pkgVersions := db.pkgVersions ++ [⟨db.nextID, p⟩] })

/-- `getPkgName`: Modelled from the spec (§4.1, Identity Resolver, absent from
src/): find-or-create the canonical package-name node keyed by
(type, namespace, name). -/
def getPkgName (db : DB) (p : PkgInput) : Outcome (Nat × DB) :=
  match db.pkgNames.find?
      (fun r => r.ptype == p.ptype && r.pnamespace == p.pnamespace
        && r.pname == p.pname) with
  | some r => .ok (r.id, db)
  | none =>
    .ok (db.nextID,
      { db with nextID := db.nextID + 1,
                pkgNames := db.pkgNames
                  ++ [⟨db.nextID, p.ptype, p.pnamespace, p.pname⟩] })

/-- `upsertSource`: Modelled from the spec (§4.1, Identity Resolver, absent
from src/): find-or-create the canonical source-name node keyed by the full
source identity. -/
def upsertSource (db : DB) (s : SourceInput) : Outcome (Nat × DB) :=
  match db.sources.find? (fun r => r.src == s) with
  | some r => .ok (r.id, db)
  | none =>
    .ok (db.nextID,
      { db with nextID := db.nextID + 1,
                sources := db.sources ++ [⟨db.nextID, s⟩] })

end Guac

namespace Guac

/-! ## Conflict-resolving upserts (ent `OnConflict` with scoped unique keys) -/

/-- Replace the first element satisfying `p` by `f` of it, leaving the rest
unchanged: the effect of a SQL `ON CONFLICT ... DO UPDATE` against a (partial)
unique key, under which at most one row can match. -/
def replaceFirst {α : Type} (p : α → Bool) (f : α → α) : List α → List α
  | [] => []
  | x :: xs => if p x then f x :: xs else x :: replaceFirst p f xs

/-- The occurrence conflict target (`occurrence.go` lines 119-156): conflict
columns artifact/justification/origin/collector plus, depending on which
subject variant the candidate populates, the package (scope: `package_id NOT
NULL AND source_id NULL`) or the source foreign key (scope mirrored). -/
def occConflictWhere (cand r : OccRow) : Bool :=
  r.artifactID == cand.artifactID
    && r.justification == cand.justification
    && r.origin == cand.origin
    && r.collector == cand.collector
    && (match cand.packageID with
        | some _ => r.packageID == cand.packageID && r.sourceID == none
        | none => r.sourceID == cand.sourceID && r.packageID == none)

/-- `OnConflict(...).UpdateNewValues()` (merge policy): if a row matches the
scoped conflict target, update it to the candidate's values and return its
id; otherwise insert the candidate under a fresh id. -/
def occUpsertUpdateNewValues (db : DB) (cand : OccRow) : Nat × DB :=
  match db.occurrences.find? (occConflictWhere cand) with
  | some r =>
    let updated := replaceFirst (occConflictWhere cand)
      (fun old => { cand with id := old.id }) db.occurrences
    (r.id, { db with occurrences := updated })
  | none =>
    let inserted := db.occurrences ++ [{ cand with id := db.nextID }]
    (db.nextID, { db with nextID := db.nextID + 1, occurrences := inserted })

/-- `IngestOccurrence` (`occurrence.go` lines 93-199).  Within a transaction:
resolve the artifact (which must already be ingested), branch on the
polymorphic subject — package checked first, then source, neither is a
gqlerror — and run the merge-policy upsert; afterwards re-read the committed
row by id for the response. -/
def ingestOccurrenceTX (db : DB) (subject : PackageOrSourceInput)
    (art : ArtifactInput) (spec : IsOccurrenceInputSpec) :
    Outcome (Nat × DB) :=
  match onlyRow "artifact" (db.artifacts.filter (artifactQueryInputPredicates art)) with
  | .error e => .error e
  | .panic e => .panic e
  | .ok artRecord =>
    match subject.package with
    | some pin =>
      match getPkgVersion db pin with
      | .error e => .error ("failed to get package version: " ++ e)
      | .panic e => .panic e
      | .ok (pid, db1) =>
        .ok (occUpsertUpdateNewValues db1
          { id := 0, artifactID := artRecord.id, packageID := some pid,
            sourceID := none, justification := spec.justification,
            origin := spec.origin, collector := spec.collector })
    | none =>
      match subject.source with
      | some sin =>
        match upsertSource db sin with
        | .error e => .error e
        | .panic e => .panic e
        | .ok (sid, db1) =>
          .ok (occUpsertUpdateNewValues db1
            { id := 0, artifactID := artRecord.id, packageID := none,
              sourceID := some sid, justification := spec.justification,
              origin := spec.origin, collector := spec.collector })
      | none =>
        .error ("IngestOccurrence" ++ " :: " ++ "subject must be either a package or source")

/-- `IngestOccurrence`, continued: the `WithinTX` wrapper plus the hydrating
re-read of the committed row. -/
def IngestOccurrence (db : DB) (subject : PackageOrSourceInput)
    (art : ArtifactInput) (spec : IsOccurrenceInputSpec) :
    Outcome (String × DB) :=
  match ingestOccurrenceTX db subject art spec with
  | .error e => .error ("IngestOccurrence" ++ " :: " ++ e)
  | .panic e => .panic e
  | .ok (oid, db2) =>
    match onlyRow "occurrence" (db2.occurrences.filter (fun r => r.id == oid)) with
    | .ok r => .ok (nodeID r.id, db2)
    | .error e => .error ("IngestOccurrence" ++ " :: " ++ e)
    | .panic e => .panic e

/-- `dependencyTypeToEnum` (`dependency.go` lines 147-156). -/
def dependencyTypeToEnum : DependencyType → RowDependencyType
  | .direct => .DIRECT
  | .indirect => .INDIRECT
  | .unknown => .UNKNOWN

/-- The dependency conflict target (`dependency.go` lines 93-126): six shared
conflict columns plus, per the dependent match type, the dependent
package-name (scope: name key set, version key null) or dependent
package-version key (scope mirrored). -/
def depConflictWhere (cand r : DepRow) : Bool :=
  r.packageID == cand.packageID
    && r.versionRange == cand.versionRange
    && r.dependencyType == cand.dependencyType
    && r.justification == cand.justification
    && r.origin == cand.origin
    && r.collector == cand.collector
    && (match cand.dependentPackageNameID with
        | some _ =>
          r.dependentPackageNameID == cand.dependentPackageNameID
            && r.dependentPackageVersionID == none
        | none =>
          r.dependentPackageVersionID == cand.dependentPackageVersionID
            && r.dependentPackageNameID == none)

/-- `OnConflict(...).Ignore()` (first-writer-wins policy): if a row matches
the scoped conflict target, return its id leaving it untouched; otherwise
insert the candidate under a fresh id. -/
def depUpsertIgnore (db : DB) (cand : DepRow) : Nat × DB :=
  match db.dependencies.find? (depConflictWhere cand) with
  | some r => (r.id, db)
  | none =>
    let inserted := db.dependencies ++ [{ cand with id := db.nextID }]
    (db.nextID, { db with nextID := db.nextID + 1, dependencies := inserted })

/-- `IngestDependency` (`dependency.go` lines 76-145).  Within a transaction:
resolve the depending package version, then — per the match flags — the
dependent package name (all-versions) or version (specific), and run the
ignore-policy upsert.  Errors are wrapped with the function name. -/
def ingestDependencyTX (db : DB) (pkg depPkg : PkgInput) (depPkgMatchType : MatchFlags)
    (dep : IsDependencyInputSpec) : Outcome (Nat × DB) :=
  match getPkgVersion db pkg with
    | .error e => .error e
    | .panic e => .panic e
    | .ok (pid, db1) =>
      match depPkgMatchType.pkg with
      | .allVersions =>
        match getPkgName db1 depPkg with
        | .error e => .error e
        | .panic e => .panic e
        | .ok (dpnID, db2) =>
          .ok (depUpsertIgnore db2
            { id := 0, packageID := pid, versionRange := dep.versionRange,
              dependencyType := dependencyTypeToEnum dep.dependencyType,
              justification := dep.justification, origin := dep.origin,
              collector := dep.collector,
              dependentPackageNameID := some dpnID,
              dependentPackageVersionID := none })
      | .specificVersion =>
        match getPkgVersion db1 depPkg with
        | .error e => .error e
        | .panic e => .panic e
        | .ok (dpvID, db2) =>
          .ok (depUpsertIgnore db2
            { id := 0, packageID := pid, versionRange := dep.versionRange,
              dependencyType := dependencyTypeToEnum dep.dependencyType,
              justification := dep.justification, origin := dep.origin,
              collector := dep.collector,
              dependentPackageNameID := none,
              dependentPackageVersionID := some dpvID })

/-- `IngestDependency`, continued: the `WithinTX` wrapper; no re-read, the
upserted row's id is returned directly. -/
def IngestDependency (db : DB) (pkg depPkg : PkgInput) (depPkgMatchType : MatchFlags)
    (dep : IsDependencyInputSpec) : Outcome (String × DB) :=
  match ingestDependencyTX db pkg depPkg depPkgMatchType dep with
  | .error e => .error ("IngestDependency" ++ ": " ++ e)
  | .panic e => .panic e
  | .ok (rid, db2) => .ok (nodeID rid, db2)

end Guac

namespace Guac

/-! ## SBOM ingestion (`sbom.go` lines 101-247) -/

/-- Insert into a sorted list (ascending). -/
def insertSorted (n : Nat) : List Nat → List Nat
  | [] => [n]
  | m :: ms => if n ≤ m then n :: m :: ms else m :: insertSorted n ms

/-- `helper.SortAndRemoveDups`: Modelled from the spec (§3, absent from
src/): each included-entity set "is de-duplicated and order-normalized
before use". -/
def SortAndRemoveDups (l : List Nat) : List Nat :=
  (l.foldr insertSorted []).dedup

/-- The bill-of-materials conflict target (`sbom.go` lines 117-155): the five
document columns plus, per the subject variant, the package foreign key
(scope: `package_id NOT NULL AND artifact_id NULL`) or the artifact foreign
key (scope mirrored). -/
def sbomConflictWhere (cand r : SbomRow) : Bool :=
  r.uri == cand.uri
    && r.algorithm == cand.algorithm
    && r.digest == cand.digest
    && r.downloadLocation == cand.downloadLocation
    && r.knownSince == cand.knownSince
    && (match cand.packageID with
        | some _ => r.packageID == cand.packageID && r.artifactID == none
        | none => r.artifactID == cand.artifactID && r.packageID == none)

/-- What the `OnConflict(...).DoNothing().ID(ctx)` call can report besides an
id: ent surfaces the "no row affected, no row returned" conflict outcome as
`sql.ErrNoRows`, and any other store failure as an opaque error. -/
inductive SbomUpsertErr where
  | noRows
  | store (msg : String)
deriving DecidableEq, Repr

/-- `OnConflict(...).DoNothing()` (ignore policy, `sbom.go` lines 203-209): a
row matching the scoped conflict target makes the upsert affect and return no
row (`sql.ErrNoRows`); otherwise the candidate is inserted under a fresh
id. -/
def sbomDoNothingUpsert (db : DB) (cand : SbomRow) :
    Except SbomUpsertErr (Nat × DB) :=
  match db.sboms.find? (sbomConflictWhere cand) with
  | some _ => .error .noRows
  | none =>
    let inserted := db.sboms ++ [{ cand with id := db.nextID }]
    .ok (db.nextID, { db with nextID := db.nextID + 1, sboms := inserted })

/-- `sbom.go` lines 210-221: any upsert error other than `sql.ErrNoRows` is
wrapped and propagated; on `sql.ErrNoRows` the row is re-looked-up by URI
alone (`billofmaterials.URIEQ(spec.URI)` + `OnlyID`), ignoring the other
conflict columns, and that row's identifier is returned. -/
def sbomConflictFallback (db : DB) (uri : String) :
    Except SbomUpsertErr (Nat × DB) → Outcome (Nat × DB)
  | .ok (i, db') => .ok (i, db')
  | .error (.store m) => .error ("IngestHasSbom" ++ ": " ++ m)
  | .error .noRows =>
    match onlyRow "bill_of_materials" (db.sboms.filter (fun r => r.uri == uri)) with
    | .ok r => .ok (r.id, db)
    | .error e => .error ("IngestHasSbom" ++ " ::  " ++ e)
    | .panic e => .panic e

/-- `sbom.go` lines 162-170: resolve each included package-version id by an
existence lookup; the first failure aborts with an error naming the set (but
not the identifier). -/
def resolveIncludedPackages (db : DB) : List Nat → Outcome (List Nat)
  | [] => .ok []
  | i :: rest =>
    match onlyRow "package_version" (db.pkgVersions.filter (fun r => r.id == i)) with
    | .error e =>
      .error ("IngestHasSbom" ++ " " ++ "error querying for PackageVersion by ID"
        ++ " :: " ++ e)
    | .panic e => .panic e
    | .ok row =>
      match resolveIncludedPackages db rest with
      | .ok ids => .ok (row.id :: ids)
      | .error e => .error e
      | .panic e => .panic e

/-- `sbom.go` lines 172-181: resolve each included artifact id; the failure
message drops the underlying error and the identifier. -/
def resolveIncludedArtifacts (db : DB) : List Nat → Outcome (List Nat)
  | [] => .ok []
  | i :: rest =>
    match onlyRow "artifact" (db.artifacts.filter (fun r => r.id == i)) with
    | .error _ =>
      .error ("IngestHasSbom" ++ " :: " ++ "error querying for artifact by ID")
    | .panic e => .panic e
    | .ok row =>
      match resolveIncludedArtifacts db rest with
      | .ok ids => .ok (row.id :: ids)
      | .error e => .error e
      | .panic e => .panic e

/-- `sbom.go` lines 183-191: resolve each included dependency id; the failure
message names the set, not the identifier. -/
def resolveIncludedDependencies (db : DB) : List Nat → Outcome (List Nat)
  | [] => .ok []
  | i :: rest =>
    match onlyRow "dependency" (db.dependencies.filter (fun r => r.id == i)) with
    | .error _ =>
      .error ("IngestHasSbom" ++ " :: "
        ++ "includes.Dependencies must be a valid IsDependency ID")
    | .panic e => .panic e
    | .ok row =>
      match resolveIncludedDependencies db rest with
      | .ok ids => .ok (row.id :: ids)
      | .error e => .error e
      | .panic e => .panic e

/-- `sbom.go` lines 193-201: resolve each included occurrence id; the failure
message names the set, not the identifier. -/
def resolveIncludedOccurrences (db : DB) : List Nat → Outcome (List Nat)
  | [] => .ok []
  | i :: rest =>
    match onlyRow "occurrence" (db.occurrences.filter (fun r => r.id == i)) with
    | .error _ =>
      .error ("IngestHasSbom" ++ " :: "
        ++ "includes.Occurrences must be a valid IsOccurrence ID")
    | .panic e => .panic e
    | .ok row =>
      match resolveIncludedOccurrences db rest with
      | .ok ids => .ok (row.id :: ids)
      | .error e => .error e
      | .panic e => .panic e

/-- The candidate bill-of-materials row built by `IngestHasSbom` (`sbom.go`
lines 107-123): algorithm and digest lowercased, timestamp normalized, the
subject foreign keys and resolved included sets attached. -/
def sbomCandidate (spec : HasSBOMInputSpec) (pkgID artID : Option Nat)
    (pkgIDs artIDs depIDs occIDs : List Nat) : SbomRow :=
  { id := 0, uri := spec.uri,
    algorithm := strToLower spec.algorithm,
    digest := strToLower spec.digest,
    downloadLocation := spec.downloadLocation,
    knownSince := spec.knownSince,
    origin := spec.origin, collector := spec.collector,
    packageID := pkgID, artifactID := artID,
    includedPackages := pkgIDs, includedArtifacts := artIDs,
    includedDependencies := depIDs, includedOccurrences := occIDs }

/-- The transaction body of `IngestHasSbom` after the subject branch fixed
the foreign keys: validate and attach the four included sets, then run the
ignore-policy upsert with the URI fallback. -/
def ingestHasSbomAttach (db : DB) (spec : HasSBOMInputSpec)
    (pkgID artID : Option Nat) (includes : HasSBOMIncludesInputSpec) :
    Outcome (Nat × DB) :=
  match resolveIncludedPackages db (SortAndRemoveDups includes.packages) with
  | .error e => .error e
  | .panic e => .panic e
  | .ok pkgIDs =>
    match resolveIncludedArtifacts db (SortAndRemoveDups includes.artifacts) with
    | .error e => .error e
    | .panic e => .panic e
    | .ok artIDs =>
      match resolveIncludedDependencies db (SortAndRemoveDups includes.dependencies) with
      | .error e => .error e
      | .panic e => .panic e
      | .ok depIDs =>
        match resolveIncludedOccurrences db (SortAndRemoveDups includes.occurrences) with
        | .error e => .error e
        | .panic e => .panic e
        | .ok occIDs =>
          sbomConflictFallback db spec.uri
            (sbomDoNothingUpsert db (sbomCandidate spec pkgID artID pkgIDs artIDs depIDs occIDs))

/-- `IngestHasSbom` (`sbom.go` lines 101-229).  Within a transaction: build
the candidate (algorithm and digest lowercased, timestamp normalized), branch
on the polymorphic subject — package checked first, then artifact, neither is
an error — validate and attach the included sets, run the
`DoNothing` upsert with its URI fallback, and return the id as a string. -/
def ingestHasSbomTX (db : DB) (subject : PackageOrArtifactInput)
    (spec : HasSBOMInputSpec) (includes : HasSBOMIncludesInputSpec) :
    Outcome (Nat × DB) :=
  match subject.package with
  | some pin =>
    match getPkgVersion db pin with
    | .error e => .error ("IngestHasSbom" ++ " ::  " ++ e)
    | .panic e => .panic e
    | .ok (pid, db1) => ingestHasSbomAttach db1 spec (some pid) none includes
  | none =>
    match subject.artifact with
    | some ain =>
      match onlyRow "artifact" (db.artifacts.filter (artifactQueryInputPredicates ain)) with
      | .error e => .error ("IngestHasSbom" ++ " ::  " ++ e)
      | .panic e => .panic e
      | .ok artRecord => ingestHasSbomAttach db spec none (some artRecord.id) includes
    | none =>
      .error ("IngestHasSbom" ++ " :: " ++ "subject must be either a package or artifact")

/-- `IngestHasSbom`, continued: the `WithinTX` wrapper returning the id as a
string (`strconv.Itoa`). -/
def IngestHasSbom (db : DB) (subject : PackageOrArtifactInput)
    (spec : HasSBOMInputSpec) (includes : HasSBOMIncludesInputSpec) :
    Outcome (String × DB) :=
  match ingestHasSbomTX db subject spec includes with
  | .error e => .error ("IngestHasSbom" ++ " :: " ++ e)
  | .panic e => .panic e
  | .ok (sbomId, db') => .ok (toString sbomId, db')

/-- The loop body of `IngestHasSBOMs` (`sbom.go` lines 231-247): strictly
sequential, choosing the subject slice once for the whole batch — artifacts
if non-empty, packages otherwise — indexing the parallel slices per item
(out of range is a runtime panic), appending each returned id, stopping at
the first error with a wrapping message. -/
def ingestHasSBOMsLoop (db : DB) (subjects : PackageOrArtifactInputs)
    (includes : List HasSBOMIncludesInputSpec) (i : Nat)
    (acc : List String) : List HasSBOMInputSpec → Outcome (List String) × DB
  | [] => (.ok acc, db)
  | sb :: rest =>
    let subj? : Option PackageOrArtifactInput :=
      if 0 < subjects.artifacts.length then
        (subjects.artifacts[i]?).map (fun a => ⟨none, some a⟩)
      else
        (subjects.packages[i]?).map (fun p => ⟨some p, none⟩)
    match subj? with
    | none => (.panic "runtime error: index out of range", db)
    | some subj =>
      match includes[i]? with
      | none => (.panic "runtime error: index out of range", db)
      | some incl =>
        match IngestHasSbom db subj sb incl with
        | .ok (s, db') => ingestHasSBOMsLoop db' subjects includes (i + 1) (acc ++ [s]) rest
        | .error e => (.error ("IngestHasSBOMs failed with err: " ++ e), db)
        | .panic e => (.panic e, db)

/-- `IngestHasSBOMs` (`sbom.go` lines 231-247). -/
def IngestHasSBOMs (db : DB) (subjects : PackageOrArtifactInputs)
    (hasSBOMs : List HasSBOMInputSpec)
    (includes : List HasSBOMIncludesInputSpec) : Outcome (List String) × DB :=
  ingestHasSBOMsLoop db subjects includes 0 [] hasSBOMs

end Guac

namespace Guac

/-! ## Query filter specs and predicates -/

/-- `optionalPredicate`: Modelled from the spec (§4.5, absent from src/): an
absent filter field constrains nothing; a present one is applied. -/
def optMatch {α : Type} (o : Option α) (p : α → Bool) : Bool :=
  match o with
  | none => true
  | some v => p v

/-- `model.PkgSpec`: optional filter fields over the package identity path. -/
structure PkgSpec where
  id : Option Nat
  ptype : Option String
  pnamespace : Option String
  pname : Option String
  version : Option String
  qualifiers : Option (List (String × String))
  subpath : Option String
deriving DecidableEq, Repr

/-- `model.SourceSpec`. -/
structure SourceSpec where
  id : Option Nat
  stype : Option String
  snamespace : Option String
  sname : Option String
  commit : Option String
  tag : Option String
deriving DecidableEq, Repr

/-- `model.ArtifactSpec`. -/
structure ArtifactSpec where
  id : Option Nat
  algorithm : Option String
  digest : Option String
deriving DecidableEq, Repr

/-- `model.PackageOrSourceSpec`. -/
structure PackageOrSourceSpec where
  package : Option PkgSpec
  source : Option SourceSpec
deriving DecidableEq, Repr

/-- `model.PackageOrArtifactSpec`. -/
structure PackageOrArtifactSpec where
  package : Option PkgSpec
  artifact : Option ArtifactSpec
deriving DecidableEq, Repr

/-- `packageVersionQuery`: Modelled from the spec (§4.5, absent from src/):
the nested package filter compiles to an "exists a related version node
matching every given field" clause down the identity chain. -/
def packageVersionQuery (db : DB) (s : PkgSpec) (vid : Nat) : Bool :=
  match db.pkgVersions.find? (fun r => r.id == vid) with
  | none => false
  | some r =>
    optMatch s.id (fun i => i == r.id)
      && optMatch s.ptype (fun v => v == r.pkg.ptype)
      && optMatch s.pnamespace (fun v => v == r.pkg.pnamespace)
      && optMatch s.pname (fun v => v == r.pkg.pname)
      && optMatch s.version (fun v => r.pkg.version == some v)
      && optMatch s.qualifiers (fun q => r.pkg.qualifiers == q)
      && optMatch s.subpath (fun v => v == r.pkg.subpath)

/-- `packageNameQuery`: Modelled from the spec (§4.5, absent from src/): like
`packageVersionQuery` but matching a name-level node, so only the
type/namespace/name fields apply. -/
def packageNameQuery (db : DB) (s : PkgSpec) (nid : Nat) : Bool :=
  match db.pkgNames.find? (fun r => r.id == nid) with
  | none => false
  | some r =>
    optMatch s.id (fun i => i == r.id)
      && optMatch s.ptype (fun v => v == r.ptype)
      && optMatch s.pnamespace (fun v => v == r.pnamespace)
      && optMatch s.pname (fun v => v == r.pname)

/-- The source-subject predicate of `isOccurrenceQuery` (`occurrence.go`
lines 228-241): id, namespace chain, name, commit and tag, each optional. -/
def sourceNameQuery (db : DB) (s : SourceSpec) (sid : Nat) : Bool :=
  match db.sources.find? (fun r => r.id == sid) with
  | none => false
  | some r =>
    optMatch s.id (fun i => i == r.id)
      && optMatch s.snamespace (fun v => v == r.src.snamespace)
      && optMatch s.stype (fun v => v == r.src.stype)
      && optMatch s.sname (fun v => v == r.src.sname)
      && optMatch s.commit (fun v => r.src.commit == some v)
      && optMatch s.tag (fun v => r.src.tag == some v)

/-- The artifact sub-predicate of `isOccurrenceQuery` (`occurrence.go` lines
212-222): digest, algorithm and id, each optional, compared verbatim. -/
def occurrenceArtifactQuery (db : DB) (a : ArtifactSpec) (aid : Nat) : Bool :=
  match db.artifacts.find? (fun r => r.id == aid) with
  | none => false
  | some r =>
    optMatch a.digest (fun v => v == r.digest)
      && optMatch a.algorithm (fun v => v == r.algorithm)
      && optMatch a.id (fun i => i == r.id)

/-- `model.IsOccurrenceSpec`. -/
structure IsOccurrenceSpec where
  id : Option Nat
  justification : Option String
  origin : Option String
  collector : Option String
  artifact : Option ArtifactSpec
  subject : Option PackageOrSourceSpec
deriving DecidableEq, Repr

/-- `isOccurrenceQuery` (`occurrence.go` lines 201-245): a nil filter is the
no-op selector matching every row; otherwise the optional scalar fields, the
artifact sub-filter and the polymorphic subject sub-filter compose
conjunctively. -/
def isOccurrenceQuery (db : DB) (filter : Option IsOccurrenceSpec) (r : OccRow) : Bool :=
  match filter with
  | none => true
  | some f =>
    optMatch f.id (fun i => i == r.id)
      && optMatch f.justification (fun v => v == r.justification)
      && optMatch f.origin (fun v => v == r.origin)
      && optMatch f.collector (fun v => v == r.collector)
      && (match f.artifact with
          | none => true
          | some a => occurrenceArtifactQuery db a r.artifactID)
      && (match f.subject with
          | none => true
          | some subj =>
            match subj.package with
            | some ps =>
              (match r.packageID with
               | some pid => packageVersionQuery db ps pid
               | none => false)
            | none =>
              match subj.source with
              | some ss =>
                (match r.sourceID with
                 | some sid => sourceNameQuery db ss sid
                 | none => false)
              | none => true)

/-- `model.IsDependencySpec`. -/
structure IsDependencySpec where
  id : Option Nat
  versionRange : Option String
  justification : Option String
  origin : Option String
  collector : Option String
  package : Option PkgSpec
  dependencyPackage : Option PkgSpec
  dependencyType : Option DependencyType
deriving DecidableEq, Repr

/-- `isDependencyQuery` (`dependency.go` lines 158-191): a nil filter is the
no-op selector; a dependency-package filter without a version compiles to a
disjunction over the name-level and version-level dependent columns. -/
def isDependencyQuery (db : DB) (filter : Option IsDependencySpec) (r : DepRow) : Bool :=
  match filter with
  | none => true
  | some f =>
    optMatch f.id (fun i => i == r.id)
      && optMatch f.versionRange (fun v => v == r.versionRange)
      && optMatch f.justification (fun v => v == r.justification)
      && optMatch f.origin (fun v => v == r.origin)
      && optMatch f.collector (fun v => v == r.collector)
      && (match f.dependencyPackage with
          | none => true
          | some dps =>
            match dps.version with
            | none =>
              (match r.dependentPackageNameID with
               | some nid => packageNameQuery db dps nid
               | none => false)
              || (match r.dependentPackageVersionID with
                  | some vid => packageVersionQuery db dps vid
                  | none => false)
            | some _ =>
              (match r.dependentPackageVersionID with
               | some vid => packageVersionQuery db dps vid
               | none => false))
      && (match f.package with
          | none => true
          | some ps => packageVersionQuery db ps r.packageID)
      && optMatch f.dependencyType
          (fun t => dependencyTypeToEnum t == r.dependencyType)

/-- `model.HasSBOMSpec`. -/
structure HasSBOMSpec where
  id : Option Nat
  uri : Option String
  algorithm : Option String
  digest : Option String
  downloadLocation : Option String
  origin : Option String
  collector : Option String
  knownSince : Option Int
  subject : Option PackageOrArtifactSpec
  includedSoftware : List PackageOrArtifactSpec
  includedDependencies : List (Option IsDependencySpec)
  includedOccurrences : List (Option IsOccurrenceSpec)
deriving DecidableEq, Repr

/-- `artifactQueryPredicates`: Modelled from the spec (§4.5, absent from
src/): artifact filter fields compared case-normalized, each optional. -/
def artifactQueryPredicates (db : DB) (a : ArtifactSpec) (aid : Nat) : Bool :=
  match db.artifacts.find? (fun r => r.id == aid) with
  | none => false
  | some r =>
    optMatch a.id (fun i => i == r.id)
      && optMatch a.algorithm (fun v => strToLower v == r.algorithm)
      && optMatch a.digest (fun v => strToLower v == r.digest)

/-- One `IncludedSoftware` entry of the SBOM filter (`sbom.go` lines 56-62):
a package filter matches against the included-package set, otherwise the
artifact filter matches against the included-artifact set. -/
def sbomIncludedSoftwareMatch (db : DB) (s : PackageOrArtifactSpec) (r : SbomRow) : Bool :=
  match s.package with
  | some ps => r.includedPackages.any (fun pid => packageVersionQuery db ps pid)
  | none =>
    match s.artifact with
    | some as' => r.includedArtifacts.any (fun aid => artifactQueryPredicates db as' aid)
    | none => true

/-- Whether the included-dependency set holds a row matching the nested
dependency filter (`sbom.go` lines 63-65). -/
def sbomIncludedDependencyMatch (db : DB) (f : Option IsDependencySpec) (r : SbomRow) : Bool :=
  r.includedDependencies.any (fun did =>
    match db.dependencies.find? (fun d => d.id == did) with
    | some d => isDependencyQuery db f d
    | none => false)

/-- Whether the included-occurrence set holds a row matching the nested
occurrence filter (`sbom.go` lines 66-68). -/
def sbomIncludedOccurrenceMatch (db : DB) (f : Option IsOccurrenceSpec) (r : SbomRow) : Bool :=
  r.includedOccurrences.any (fun oid =>
    match db.occurrences.find? (fun o => o.id == oid) with
    | some o => isOccurrenceQuery db f o
    | none => false)

/-- The composed `HasSBOM` predicate (`sbom.go` lines 36-68): the optional
scalar fields (algorithm and digest lowercased via `toLowerPtr`), the
polymorphic subject sub-filter, and one conjunct per included-set filter
entry. -/
def hasSBOMQuery (db : DB) (f : HasSBOMSpec) (r : SbomRow) : Bool :=
  optMatch f.id (fun i => i == r.id)
    && optMatch f.algorithm (fun v => strToLower v == r.algorithm)
    && optMatch f.digest (fun v => strToLower v == r.digest)
    && optMatch f.uri (fun v => v == r.uri)
    && optMatch f.collector (fun v => v == r.collector)
    && optMatch f.downloadLocation (fun v => v == r.downloadLocation)
    && optMatch f.origin (fun v => v == r.origin)
    && optMatch f.knownSince (fun v => v == r.knownSince)
    && (match f.subject with
        | none => true
        | some subj =>
          match subj.package with
          | some ps =>
            (match r.packageID with
             | some pid => packageVersionQuery db ps pid
             | none => false)
          | none =>
            match subj.artifact with
            | some as' =>
              (match r.artifactID with
               | some aid => artifactQueryPredicates db as' aid
               | none => false)
            | none => true)
    && f.includedSoftware.all (fun s => sbomIncludedSoftwareMatch db s r)
    && f.includedDependencies.all (fun s => sbomIncludedDependencyMatch db s r)
    && f.includedOccurrences.all (fun s => sbomIncludedOccurrenceMatch db s r)

/-- `MaxPageSize`: Modelled from the spec (§4.5, constant defined outside
src/): "Result sets are capped at a fixed maximum page size"; embedded with
the fixed value 1000. -/
def MaxPageSize : Nat := 1000

/-- Insertion sort of rows by a natural-number key (the effect of
`Order(ent.Asc(FieldID))`). -/
def insertRowSorted {α : Type} (key : α → Nat) (x : α) : List α → List α
  | [] => [x]
  | y :: ys => if key x ≤ key y then x :: y :: ys else y :: insertRowSorted key x ys

/-- Sort rows ascending by key. -/
def sortRowsBy {α : Type} (key : α → Nat) (l : List α) : List α :=
  l.foldr (insertRowSorted key) []

/-- `IsOccurrence` (`occurrence.go` lines 36-64): filter the occurrence table
by the composed predicate and return every match, hydrated — note: no
`Limit` and no `Order` are applied. -/
def IsOccurrence (db : DB) (query : Option IsOccurrenceSpec) : Outcome (List OccRow) :=
  .ok (db.occurrences.filter (isOccurrenceQuery db query))

/-- `IsDependency` (`dependency.go` lines 30-49): a nil spec returns
`nil, nil` — the empty result with no error; otherwise the composed
predicate, ordered by id, capped at `MaxPageSize`. -/
def IsDependency (db : DB) (spec : Option IsDependencySpec) : Outcome (List DepRow) :=
  match spec with
  | none => .ok []
  | some s =>
    .ok ((sortRowsBy (fun r => r.id)
      (db.dependencies.filter (isDependencyQuery db (some s)))).take MaxPageSize)

/-- `HasSBOM` (`sbom.go` lines 34-99): the spec pointer is dereferenced
unconditionally while building the predicate list, so a nil spec is a
runtime nil-pointer panic; otherwise the composed predicate capped at
`MaxPageSize`. -/
def HasSBOM (db : DB) (spec : Option HasSBOMSpec) : Outcome (List SbomRow) :=
  match spec with
  | none => .panic "runtime error: invalid memory address or nil pointer dereference"
  | some s => .ok ((db.sboms.filter (hasSBOMQuery db s)).take MaxPageSize)

end Guac

namespace Guac

/-! ## Concurrent batch dispatch (`errgroup` + `concurrently`)

The Go batch entry points fan out one unit of work per input item and write
each result back at the caller-supplied index into a preallocated slice; the
first error aborts the reported result.  The embedding determinizes this:
the dispatch loop's slice indexing (which happens on the dispatching
goroutine for every item) is phase one, and the items then run sequentially
in index order, threading the store, as phase two.  Transactions already
committed when an error occurs stay committed, which the pairing of an
`Outcome` with the final `DB` expresses. -/

/-- Write `a` at position `i`, leaving the list unchanged when out of
range — the semantics of `models[index] = ...` on a preallocated slice. -/
def listSet {α : Type} : List α → Nat → α → List α
  | [], _, _ => []
  | _ :: xs, 0, a => a :: xs
  | x :: xs, n + 1, a => x :: listSet xs n a

/-- Phase two: run each dispatched item in index order, writing its id back
at its caller-supplied index, stopping at the first error. -/
def batchRun {ι : Type} (f : DB → ι → Outcome (String × DB)) :
    DB → Nat → List String → List ι → Outcome (List String) × DB
  | db, _, acc, [] => (.ok acc, db)
  | db, i, acc, item :: rest =>
    match f db item with
    | .ok (s, db') => batchRun f db' (i + 1) (listSet acc i s) rest
    | .error e => (.error e, db)
    | .panic e => (.panic e, db)

/-- Phase one of `IngestOccurrences` (`occurrence.go` lines 66-91): for every
index of the driving `occurrences` slice, read the subject — from the
`Packages` slice when it is non-empty, else from `Sources` — and the
artifact at the same index.  An out-of-range index is a runtime panic; no
length validation happens first. -/
def occurrenceItems (subjects : PackageOrSourceInputs)
    (artifacts : List ArtifactInput) (i : Nat) :
    List IsOccurrenceInputSpec →
    Outcome (List (PackageOrSourceInput × ArtifactInput × IsOccurrenceInputSpec))
  | [] => .ok []
  | occ :: rest =>
    let subj? : Option PackageOrSourceInput :=
      if 0 < subjects.packages.length then
        (subjects.packages[i]?).map (fun p => ⟨some p, none⟩)
      else
        (subjects.sources[i]?).map (fun s => ⟨none, some s⟩)
    match subj? with
    | none => .panic "runtime error: index out of range"
    | some subj =>
      match artifacts[i]? with
      | none => .panic "runtime error: index out of range"
      | some a =>
        match occurrenceItems subjects artifacts (i + 1) rest with
        | .ok items => .ok ((subj, a, occ) :: items)
        | .error e => .error e
        | .panic e => .panic e

/-- `IngestOccurrences` (`occurrence.go` lines 66-91). -/
def IngestOccurrences (db : DB) (subjects : PackageOrSourceInputs)
    (artifacts : List ArtifactInput)
    (occurrences : List IsOccurrenceInputSpec) : Outcome (List String) × DB :=
  match occurrenceItems subjects artifacts 0 occurrences with
  | .error e => (.error e, db)
  | .panic e => (.panic e, db)
  | .ok items =>
    batchRun (fun db it => IngestOccurrence db it.1 it.2.1 it.2.2) db 0
      (List.replicate occurrences.length "") items

/-- Phase one of `IngestDependencies` (`dependency.go` lines 51-74): for
every index of the driving `dependencies` slice, read the depending and the
dependent package at the same index.  An out-of-range index is a runtime
panic; no length validation happens first. -/
def dependencyItems (pkgs depPkgs : List PkgInput) (i : Nat) :
    List IsDependencyInputSpec →
    Outcome (List (PkgInput × PkgInput × IsDependencyInputSpec))
  | [] => .ok []
  | dep :: rest =>
    match pkgs[i]? with
    | none => .panic "runtime error: index out of range"
    | some p =>
      match depPkgs[i]? with
      | none => .panic "runtime error: index out of range"
      | some dp =>
        match dependencyItems pkgs depPkgs (i + 1) rest with
        | .ok items => .ok ((p, dp, dep) :: items)
        | .error e => .error e
        | .panic e => .panic e

/-- `IngestDependencies` (`dependency.go` lines 51-74). -/
def IngestDependencies (db : DB) (pkgs depPkgs : List PkgInput)
    (depPkgMatchType : MatchFlags)
    (dependencies : List IsDependencyInputSpec) : Outcome (List String) × DB :=
  match dependencyItems pkgs depPkgs 0 dependencies with
  | .error e => (.error e, db)
  | .panic e => (.panic e, db)
  | .ok items =>
    batchRun (fun db it => IngestDependency db it.1 it.2.1 depPkgMatchType it.2.2) db 0
      (List.replicate dependencies.length "") items

end Guac

namespace Guac

/-! ## Supporting lemmas -/

lemma onlyRow_singleton {α : Type} (n : String) (r : α) : onlyRow n [r] = .ok r := rfl

lemma onlyRow_nil {α : Type} (n : String) :
    onlyRow (α := α) n [] = .error ("ent: " ++ n ++ " not found") := rfl

lemma onlyRow_ok_iff {α : Type} {n : String} {l : List α} {r : α} :
    onlyRow n l = .ok r ↔ l = [r] := by
  constructor
  · intro h
    match l with
    | [] => simp [onlyRow] at h
    | [x] => simp [onlyRow] at h; simp [h]
    | x :: y :: rest => simp [onlyRow] at h
  · rintro rfl; rfl

lemma onlyRow_ne_panic {α : Type} {n : String} {l : List α} {e : String} :
    onlyRow n l ≠ .panic e := by
  match l with
  | [] => simp [onlyRow]
  | [x] => simp [onlyRow]
  | x :: y :: rest => simp [onlyRow]

lemma getPkgVersion_ok_stable {db : DB} {p : PkgInput} {i : Nat} {db1 : DB}
    (h : getPkgVersion db p = .ok (i, db1)) :
    ∀ db2 : DB, db2.pkgVersions = db1.pkgVersions → getPkgVersion db2 p = .ok (i, db2) := by
  intro db2 h2
  cases hv : p.version with
  | none => simp [getPkgVersion, hv] at h
  | some v =>
    simp only [getPkgVersion, hv] at h ⊢
    cases hf : db.pkgVersions.find? (fun r => r.pkg == p) with
    | some r =>
      simp only [hf] at h
      obtain ⟨hi, hdb⟩ := by simpa using h
      subst hdb
      rw [h2, hf]
      simp [hi]
    | none =>
      simp only [hf] at h
      obtain ⟨hi, hdb⟩ := by simpa using h
      subst hdb
      simp only [h2]
      rw [List.find?_append, hf]
      simp [hi]

lemma getPkgVersion_ok_fields {db : DB} {p : PkgInput} {i : Nat} {db1 : DB}
    (h : getPkgVersion db p = .ok (i, db1)) :
    db1.artifacts = db.artifacts ∧ db1.pkgNames = db.pkgNames
      ∧ db1.sources = db.sources ∧ db1.occurrences = db.occurrences
      ∧ db1.dependencies = db.dependencies ∧ db1.sboms = db.sboms := by
  cases hv : p.version with
  | none => simp [getPkgVersion, hv] at h
  | some v =>
    simp only [getPkgVersion, hv] at h
    cases hf : db.pkgVersions.find? (fun r => r.pkg == p) with
    | some r =>
      simp only [hf] at h
      obtain ⟨hi, hdb⟩ := by simpa using h
      subst hdb; simp
    | none =>
      simp only [hf] at h
      obtain ⟨hi, hdb⟩ := by simpa using h
      subst hdb; simp

lemma getPkgName_ok_stable {db : DB} {p : PkgInput} {i : Nat} {db1 : DB}
    (h : getPkgName db p = .ok (i, db1)) :
    ∀ db2 : DB, db2.pkgNames = db1.pkgNames → getPkgName db2 p = .ok (i, db2) := by
  intro db2 h2
  simp only [getPkgName] at h ⊢
  cases hf : db.pkgNames.find?
      (fun r => r.ptype == p.ptype && r.pnamespace == p.pnamespace && r.pname == p.pname) with
  | some r =>
    simp only [hf] at h
    obtain ⟨hi, hdb⟩ := by simpa using h
    subst hdb
    rw [h2, hf]
    simp [hi]
  | none =>
    simp only [hf] at h
    obtain ⟨hi, hdb⟩ := by simpa using h
    subst hdb
    simp only [h2]
    rw [List.find?_append, hf]
    simp [hi]

lemma getPkgName_ok_fields {db : DB} {p : PkgInput} {i : Nat} {db1 : DB}
    (h : getPkgName db p = .ok (i, db1)) :
    db1.artifacts = db.artifacts ∧ db1.pkgVersions = db.pkgVersions
      ∧ db1.sources = db.sources ∧ db1.occurrences = db.occurrences
      ∧ db1.dependencies = db.dependencies ∧ db1.sboms = db.sboms := by
  simp only [getPkgName] at h
  cases hf : db.pkgNames.find?
      (fun r => r.ptype == p.ptype && r.pnamespace == p.pnamespace && r.pname == p.pname) with
  | some r =>
    simp only [hf] at h
    obtain ⟨hi, hdb⟩ := by simpa using h
    subst hdb; simp
  | none =>
    simp only [hf] at h
    obtain ⟨hi, hdb⟩ := by simpa using h
    subst hdb; simp

lemma upsertSource_ok_stable {db : DB} {s : SourceInput} {i : Nat} {db1 : DB}
    (h : upsertSource db s = .ok (i, db1)) :
    ∀ db2 : DB, db2.sources = db1.sources → upsertSource db2 s = .ok (i, db2) := by
  intro db2 h2
  simp only [upsertSource] at h ⊢
  cases hf : db.sources.find? (fun r => r.src == s) with
  | some r =>
    simp only [hf] at h
    obtain ⟨hi, hdb⟩ := by simpa using h
    subst hdb
    rw [h2, hf]
    simp [hi]
  | none =>
    simp only [hf] at h
    obtain ⟨hi, hdb⟩ := by simpa using h
    subst hdb
    simp only [h2]
    rw [List.find?_append, hf]
    simp [hi]

lemma upsertSource_ok_fields {db : DB} {s : SourceInput} {i : Nat} {db1 : DB}
    (h : upsertSource db s = .ok (i, db1)) :
    db1.artifacts = db.artifacts ∧ db1.pkgVersions = db.pkgVersions
      ∧ db1.pkgNames = db.pkgNames ∧ db1.occurrences = db.occurrences
      ∧ db1.dependencies = db.dependencies ∧ db1.sboms = db.sboms := by
  simp only [upsertSource] at h
  cases hf : db.sources.find? (fun r => r.src == s) with
  | some r =>
    simp only [hf] at h
    obtain ⟨hi, hdb⟩ := by simpa using h
    subst hdb; simp
  | none =>
    simp only [hf] at h
    obtain ⟨hi, hdb⟩ := by simpa using h
    subst hdb; simp

end Guac

namespace Guac

lemma replaceFirst_length {α : Type} (p : α → Bool) (f : α → α) (l : List α) :
    (replaceFirst p f l).length = l.length := by
  induction l with
  | nil => rfl
  | cons x xs ih =>
    simp only [replaceFirst]
    by_cases hx : p x <;> simp [hx, ih]

lemma replaceFirst_of_forall_false {α : Type} {p : α → Bool} {f : α → α} {l : List α}
    (h : ∀ x ∈ l, ¬ p x) : replaceFirst p f l = l := by
  induction l with
  | nil => rfl
  | cons x xs ih =>
    simp only [replaceFirst]
    have hx : ¬ p x := h x (by simp)
    simp only [hx, if_neg, Bool.false_eq_true, if_false]
    rw [ih (fun y hy => h y (by simp [hy]))]

lemma replaceFirst_append_of_forall_false {α : Type} {p : α → Bool} {f : α → α}
    {l m : List α} (h : ∀ x ∈ l, ¬ p x) :
    replaceFirst p f (l ++ m) = l ++ replaceFirst p f m := by
  induction l with
  | nil => rfl
  | cons x xs ih =>
    have hx : ¬ p x := h x (by simp)
    simp only [List.cons_append, replaceFirst, hx, Bool.false_eq_true, if_false]
    show x :: replaceFirst p f (xs ++ m) = x :: (xs ++ replaceFirst p f m)
    rw [ih (fun y hy => h y (by simp [hy]))]

lemma replaceFirst_find_self {α : Type} {p : α → Bool} {f : α → α} {l : List α} {r : α}
    (hfind : l.find? p = some r) (hp : ∀ x, p (f x) = true) (hf : ∀ x, f (f x) = f x) :
    (replaceFirst p f l).find? p = some (f r)
      ∧ replaceFirst p f (replaceFirst p f l) = replaceFirst p f l := by
  induction l with
  | nil => simp at hfind
  | cons x xs ih =>
    by_cases hx : p x
    · have hr : r = x := by
        rw [List.find?_cons_of_pos _ hx] at hfind
        exact (Option.some_inj.mp hfind).symm
      subst hr
      simp only [replaceFirst, hx, if_true]
      constructor
      · exact List.find?_cons_of_pos _ (hp r)
      · simp [replaceFirst, hp r, hf r]
    · rw [List.find?_cons_of_neg _ hx] at hfind
      obtain ⟨ih1, ih2⟩ := ih hfind
      simp only [replaceFirst, hx, Bool.false_eq_true, if_false]
      constructor
      · rw [List.find?_cons_of_neg _ hx]
        exact ih1
      · rw [ih2]

lemma occConflictWhere_self {cand : OccRow} {j : Nat}
    (hexcl : cand.packageID = none ∨ cand.sourceID = none) :
    occConflictWhere cand { cand with id := j } = true := by
  cases hp : cand.packageID with
  | some pid =>
    have hs : cand.sourceID = none := by
      rcases hexcl with h | h
      · rw [hp] at h; cases h
      · exact h
    simp [occConflictWhere, hp, hs]
  | none => simp [occConflictWhere, hp]

lemma depConflictWhere_self {cand : DepRow} {j : Nat}
    (hexcl : cand.dependentPackageNameID = none ∨ cand.dependentPackageVersionID = none) :
    depConflictWhere cand { cand with id := j } = true := by
  cases hn : cand.dependentPackageNameID with
  | some nid =>
    have hv : cand.dependentPackageVersionID = none := by
      rcases hexcl with h | h
      · rw [hn] at h; cases h
      · exact h
    simp [depConflictWhere, hn, hv]
  | none => simp [depConflictWhere, hn]

lemma sbomConflictWhere_self {cand : SbomRow} {j : Nat}
    (hexcl : cand.packageID = none ∨ cand.artifactID = none) :
    sbomConflictWhere cand { cand with id := j } = true := by
  cases hp : cand.packageID with
  | some pid =>
    have ha : cand.artifactID = none := by
      rcases hexcl with h | h
      · rw [hp] at h; cases h
      · exact h
    simp [sbomConflictWhere, hp, ha]
  | none => simp [sbomConflictWhere, hp]

end Guac

namespace Guac

lemma occUpsert_fields {db : DB} {cand : OccRow} {i : Nat} {db1 : DB}
    (h : occUpsertUpdateNewValues db cand = (i, db1)) :
    db1.artifacts = db.artifacts ∧ db1.pkgVersions = db.pkgVersions
      ∧ db1.pkgNames = db.pkgNames ∧ db1.sources = db.sources
      ∧ db1.dependencies = db.dependencies ∧ db1.sboms = db.sboms
      ∧ db1.occurrences.length ≤ db.occurrences.length + 1 := by
  simp only [occUpsertUpdateNewValues] at h
  cases hf : db.occurrences.find? (occConflictWhere cand) with
  | some r =>
    simp only [hf] at h
    obtain ⟨hi, hdb⟩ := by simpa using h
    subst hdb
    simp [replaceFirst_length]
  | none =>
    simp only [hf] at h
    obtain ⟨hi, hdb⟩ := by simpa using h
    subst hdb
    simp

lemma occUpsert_stable {db : DB} {cand : OccRow} {i : Nat} {db1 : DB}
    (hexcl : cand.packageID = none ∨ cand.sourceID = none)
    (h : occUpsertUpdateNewValues db cand = (i, db1)) :
    ∀ db2 : DB, db2.occurrences = db1.occurrences →
      occUpsertUpdateNewValues db2 cand = (i, db2) := by
  intro db2 h2
  have hp : ∀ x : OccRow, occConflictWhere cand ((fun old => { cand with id := old.id }) x) = true :=
    fun _ => occConflictWhere_self hexcl
  have hff : ∀ x : OccRow, (fun old => { cand with id := old.id })
      ((fun old => { cand with id := old.id }) x) = (fun old => { cand with id := old.id }) x :=
    fun _ => rfl
  simp only [occUpsertUpdateNewValues] at h ⊢
  cases hf : db.occurrences.find? (occConflictWhere cand) with
  | some r =>
    simp only [hf] at h
    obtain ⟨hi, hdb⟩ := by simpa using h
    obtain ⟨hfind, hrep⟩ := replaceFirst_find_self hf hp hff
    have h2' : db2.occurrences = replaceFirst (occConflictWhere cand)
        (fun old => { cand with id := old.id }) db.occurrences := by
      rw [h2, ← hdb]
    have hfind2 : db2.occurrences.find? (occConflictWhere cand)
        = some { cand with id := r.id } := by rw [h2']; exact hfind
    simp only [hfind2]
    have hX : replaceFirst (occConflictWhere cand)
        (fun old => { cand with id := old.id }) db2.occurrences = db2.occurrences := by
      rw [h2']; exact hrep
    rw [Prod.mk.injEq]
    exact ⟨hi, by rw [hX]⟩
  | none =>
    simp only [hf] at h
    obtain ⟨hi, hdb⟩ := by simpa using h
    have hnone : ∀ x ∈ db.occurrences, ¬ occConflictWhere cand x := by
      simpa using List.find?_eq_none.mp hf
    have h2' : db2.occurrences
        = db.occurrences ++ [{ cand with id := db.nextID }] := by
      rw [h2, ← hdb]
    have hfind2 : db2.occurrences.find? (occConflictWhere cand)
        = some { cand with id := db.nextID } := by
      rw [h2', List.find?_append, hf]
      simp only [Option.none_or]
      exact List.find?_cons_of_pos _ (occConflictWhere_self hexcl)
    simp only [hfind2]
    have hsingle : replaceFirst (occConflictWhere cand)
        (fun old => { cand with id := old.id }) [{ cand with id := db.nextID }]
        = [{ cand with id := db.nextID }] := by
      simp only [replaceFirst, occConflictWhere_self hexcl, if_true]
    have hX : replaceFirst (occConflictWhere cand)
        (fun old => { cand with id := old.id }) db2.occurrences = db2.occurrences := by
      rw [h2', replaceFirst_append_of_forall_false hnone, hsingle]
    rw [Prod.mk.injEq]
    exact ⟨hi, by rw [hX]⟩

lemma depUpsert_fields {db : DB} {cand : DepRow} {i : Nat} {db1 : DB}
    (h : depUpsertIgnore db cand = (i, db1)) :
    db1.artifacts = db.artifacts ∧ db1.pkgVersions = db.pkgVersions
      ∧ db1.pkgNames = db.pkgNames ∧ db1.sources = db.sources
      ∧ db1.occurrences = db.occurrences ∧ db1.sboms = db.sboms
      ∧ db1.dependencies.length ≤ db.dependencies.length + 1 := by
  simp only [depUpsertIgnore] at h
  cases hf : db.dependencies.find? (depConflictWhere cand) with
  | some r =>
    simp only [hf] at h
    obtain ⟨hi, hdb⟩ := by simpa using h
    subst hdb
    simp
  | none =>
    simp only [hf] at h
    obtain ⟨hi, hdb⟩ := by simpa using h
    subst hdb
    simp

lemma depUpsert_stable {db : DB} {cand : DepRow} {i : Nat} {db1 : DB}
    (hexcl : cand.dependentPackageNameID = none ∨ cand.dependentPackageVersionID = none)
    (h : depUpsertIgnore db cand = (i, db1)) :
    ∀ db2 : DB, db2.dependencies = db1.dependencies →
      depUpsertIgnore db2 cand = (i, db2) := by
  intro db2 h2
  simp only [depUpsertIgnore] at h ⊢
  cases hf : db.dependencies.find? (depConflictWhere cand) with
  | some r =>
    simp only [hf] at h
    obtain ⟨hi, hdb⟩ := by simpa using h
    subst hdb
    rw [h2, hf]
    exact congrArg (fun z => (z, db2)) hi
  | none =>
    simp only [hf] at h
    obtain ⟨hi, hdb⟩ := by simpa using h
    subst hdb
    rw [h2]
    rw [List.find?_append, hf]
    simp only [Option.none_or]
    rw [List.find?_cons_of_pos _ (depConflictWhere_self hexcl)]
    exact congrArg (fun z => (z, db2)) hi

end Guac

namespace Guac

lemma resolveIncludedPackages_stable {db db2 : DB}
    (heq : db2.pkgVersions = db.pkgVersions) :
    ∀ l ids, resolveIncludedPackages db l = .ok ids →
      resolveIncludedPackages db2 l = .ok ids := by
  intro l
  induction l with
  | nil =>
    intro ids h
    simpa [resolveIncludedPackages] using h
  | cons x xs ih =>
    intro ids h
    simp only [resolveIncludedPackages] at h ⊢
    rw [heq]
    cases ho : onlyRow "package_version" (db.pkgVersions.filter (fun r => r.id == x)) with
    | ok row =>
      simp only [ho] at h
      cases hr : resolveIncludedPackages db xs with
      | ok ids' =>
        simp only [hr] at h
        rw [ih ids' hr]
        exact h
      | error e => simp [hr] at h
      | panic e => simp [hr] at h
    | error e => simp [ho] at h
    | panic e => simp [ho] at h

lemma resolveIncludedArtifacts_stable {db db2 : DB}
    (heq : db2.artifacts = db.artifacts) :
    ∀ l ids, resolveIncludedArtifacts db l = .ok ids →
      resolveIncludedArtifacts db2 l = .ok ids := by
  intro l
  induction l with
  | nil =>
    intro ids h
    simpa [resolveIncludedArtifacts] using h
  | cons x xs ih =>
    intro ids h
    simp only [resolveIncludedArtifacts] at h ⊢
    rw [heq]
    cases ho : onlyRow "artifact" (db.artifacts.filter (fun r => r.id == x)) with
    | ok row =>
      simp only [ho] at h
      cases hr : resolveIncludedArtifacts db xs with
      | ok ids' =>
        simp only [hr] at h
        rw [ih ids' hr]
        exact h
      | error e => simp [hr] at h
      | panic e => simp [hr] at h
    | error e => simp [ho] at h
    | panic e => simp [ho] at h

lemma resolveIncludedDependencies_stable {db db2 : DB}
    (heq : db2.dependencies = db.dependencies) :
    ∀ l ids, resolveIncludedDependencies db l = .ok ids →
      resolveIncludedDependencies db2 l = .ok ids := by
  intro l
  induction l with
  | nil =>
    intro ids h
    simpa [resolveIncludedDependencies] using h
  | cons x xs ih =>
    intro ids h
    simp only [resolveIncludedDependencies] at h ⊢
    rw [heq]
    cases ho : onlyRow "dependency" (db.dependencies.filter (fun r => r.id == x)) with
    | ok row =>
      simp only [ho] at h
      cases hr : resolveIncludedDependencies db xs with
      | ok ids' =>
        simp only [hr] at h
        rw [ih ids' hr]
        exact h
      | error e => simp [hr] at h
      | panic e => simp [hr] at h
    | error e => simp [ho] at h
    | panic e => simp [ho] at h

lemma resolveIncludedOccurrences_stable {db db2 : DB}
    (heq : db2.occurrences = db.occurrences) :
    ∀ l ids, resolveIncludedOccurrences db l = .ok ids →
      resolveIncludedOccurrences db2 l = .ok ids := by
  intro l
  induction l with
  | nil =>
    intro ids h
    simpa [resolveIncludedOccurrences] using h
  | cons x xs ih =>
    intro ids h
    simp only [resolveIncludedOccurrences] at h ⊢
    rw [heq]
    cases ho : onlyRow "occurrence" (db.occurrences.filter (fun r => r.id == x)) with
    | ok row =>
      simp only [ho] at h
      cases hr : resolveIncludedOccurrences db xs with
      | ok ids' =>
        simp only [hr] at h
        rw [ih ids' hr]
        exact h
      | error e => simp [hr] at h
      | panic e => simp [hr] at h
    | error e => simp [ho] at h
    | panic e => simp [ho] at h

end Guac

namespace Guac

lemma sbomUpsertStep_fields {db : DB} {cand : SbomRow} {uri : String} {i : Nat} {db1 : DB}
    (h : sbomConflictFallback db uri (sbomDoNothingUpsert db cand) = .ok (i, db1)) :
    db1.artifacts = db.artifacts ∧ db1.pkgVersions = db.pkgVersions
      ∧ db1.pkgNames = db.pkgNames ∧ db1.sources = db.sources
      ∧ db1.occurrences = db.occurrences ∧ db1.dependencies = db.dependencies
      ∧ db1.sboms.length ≤ db.sboms.length + 1 := by
  cases hf : db.sboms.find? (sbomConflictWhere cand) with
  | some w =>
    have hup : sbomDoNothingUpsert db cand = .error .noRows := by
      simp [sbomDoNothingUpsert, hf]
    rw [hup] at h
    simp only [sbomConflictFallback] at h
    cases ho : onlyRow "bill_of_materials" (db.sboms.filter (fun r => r.uri == uri)) with
    | ok r =>
      simp only [ho] at h
      obtain ⟨hi, hdb⟩ := by simpa using h
      subst hdb
      simp
    | error e => simp [ho] at h
    | panic e => simp [ho] at h
  | none =>
    have hup : sbomDoNothingUpsert db cand = .ok (db.nextID,
        { db with nextID := db.nextID + 1,
                  sboms := db.sboms ++ [{ cand with id := db.nextID }] }) := by
      simp [sbomDoNothingUpsert, hf]
    rw [hup] at h
    simp only [sbomConflictFallback] at h
    obtain ⟨hi, hdb⟩ := by simpa using h
    subst hdb
    simp

lemma sbomUpsertStep_stable {db : DB} {cand : SbomRow} {uri : String} {i : Nat} {db1 : DB}
    (hexcl : cand.packageID = none ∨ cand.artifactID = none)
    (huri : cand.uri = uri)
    (h : sbomConflictFallback db uri (sbomDoNothingUpsert db cand) = .ok (i, db1))
    (hlen : (db1.sboms.filter (fun r => r.uri == uri)).length = 1) :
    ∀ db2 : DB, db2.sboms = db1.sboms →
      sbomConflictFallback db2 uri (sbomDoNothingUpsert db2 cand) = .ok (i, db2) := by
  intro db2 h2
  cases hf : db.sboms.find? (sbomConflictWhere cand) with
  | some w =>
    have hup : sbomDoNothingUpsert db cand = .error .noRows := by
      simp [sbomDoNothingUpsert, hf]
    rw [hup] at h
    simp only [sbomConflictFallback] at h
    cases ho : onlyRow "bill_of_materials" (db.sboms.filter (fun r => r.uri == uri)) with
    | ok r =>
      simp only [ho] at h
      obtain ⟨hi, hdb⟩ := by simpa using h
      have h2' : db2.sboms = db.sboms := by rw [h2, ← hdb]
      have hf2 : db2.sboms.find? (sbomConflictWhere cand) = some w := by
        rw [h2']; exact hf
      have hup2 : sbomDoNothingUpsert db2 cand = .error .noRows := by
        simp [sbomDoNothingUpsert, hf2]
      rw [hup2]
      simp only [sbomConflictFallback]
      have ho2 : onlyRow "bill_of_materials" (db2.sboms.filter (fun r => r.uri == uri)) = .ok r := by
        rw [h2']; exact ho
      simp only [ho2]
      rw [hi]
    | error e => simp [ho] at h
    | panic e => simp [ho] at h
  | none =>
    have hup : sbomDoNothingUpsert db cand = .ok (db.nextID,
        { db with nextID := db.nextID + 1,
                  sboms := db.sboms ++ [{ cand with id := db.nextID }] }) := by
      simp [sbomDoNothingUpsert, hf]
    rw [hup] at h
    simp only [sbomConflictFallback] at h
    obtain ⟨hi, hdb⟩ := by simpa using h
    have h2' : db2.sboms = db.sboms ++ [{ cand with id := db.nextID }] := by
      rw [h2, ← hdb]
    have hnoneP : ∀ x ∈ db.sboms, ¬ sbomConflictWhere cand x := by
      simpa using List.find?_eq_none.mp hf
    have hf2 : db2.sboms.find? (sbomConflictWhere cand)
        = some { cand with id := db.nextID } := by
      rw [h2', List.find?_append, hf]
      simp only [Option.none_or]
      exact List.find?_cons_of_pos _ (sbomConflictWhere_self hexcl)
    have hup2 : sbomDoNothingUpsert db2 cand = .error .noRows := by
      simp [sbomDoNothingUpsert, hf2]
    rw [hup2]
    simp only [sbomConflictFallback]
    have hnew_uri : ((({ cand with id := db.nextID } : SbomRow)).uri == uri) = true := by
      simp [huri]
    have hlen' : (List.filter (fun r : SbomRow => r.uri == uri)
        (db.sboms ++ [{ cand with id := db.nextID }])).length = 1 := by
      rw [← hdb] at hlen
      exact hlen
    rw [List.filter_append] at hlen'
    have hfil_single : List.filter (fun r : SbomRow => r.uri == uri)
        [{ cand with id := db.nextID }] = [{ cand with id := db.nextID }] := by
      simp [List.filter_cons, hnew_uri]
    rw [hfil_single] at hlen'
    have hfil_nil : db.sboms.filter (fun r => r.uri == uri) = [] := by
      have : (db.sboms.filter (fun r => r.uri == uri)).length = 0 := by
        have := hlen'
        rw [List.length_append] at this
        simpa using this
      exact List.length_eq_zero.mp this
    have hfil2 : db2.sboms.filter (fun r => r.uri == uri)
        = [{ cand with id := db.nextID }] := by
      rw [h2', List.filter_append, hfil_nil, hfil_single]
      rfl
    rw [hfil2]
    simp only [onlyRow]
    rw [Outcome.ok.injEq, Prod.mk.injEq]
    exact ⟨hi, rfl⟩

end Guac

namespace Guac

lemma ingestHasSbomAttach_fields {db : DB} {spec : HasSBOMInputSpec}
    {pkgID artID : Option Nat} {incl : HasSBOMIncludesInputSpec} {i : Nat} {db1 : DB}
    (h : ingestHasSbomAttach db spec pkgID artID incl = .ok (i, db1)) :
    db1.artifacts = db.artifacts ∧ db1.pkgVersions = db.pkgVersions
      ∧ db1.pkgNames = db.pkgNames ∧ db1.sources = db.sources
      ∧ db1.occurrences = db.occurrences ∧ db1.dependencies = db.dependencies
      ∧ db1.sboms.length ≤ db.sboms.length + 1 := by
  simp only [ingestHasSbomAttach] at h
  cases h1 : resolveIncludedPackages db (SortAndRemoveDups incl.packages) with
  | error e => simp [h1] at h
  | panic e => simp [h1] at h
  | ok pkgIDs =>
    simp only [h1] at h
    cases h2 : resolveIncludedArtifacts db (SortAndRemoveDups incl.artifacts) with
    | error e => simp [h2] at h
    | panic e => simp [h2] at h
    | ok artIDs =>
      simp only [h2] at h
      cases h3 : resolveIncludedDependencies db (SortAndRemoveDups incl.dependencies) with
      | error e => simp [h3] at h
      | panic e => simp [h3] at h
      | ok depIDs =>
        simp only [h3] at h
        cases h4 : resolveIncludedOccurrences db (SortAndRemoveDups incl.occurrences) with
        | error e => simp [h4] at h
        | panic e => simp [h4] at h
        | ok occIDs =>
          simp only [h4] at h
          exact sbomUpsertStep_fields h

lemma ingestHasSbomAttach_stable {db : DB} {spec : HasSBOMInputSpec}
    {pkgID artID : Option Nat} {incl : HasSBOMIncludesInputSpec} {i : Nat} {db1 : DB}
    (hexcl : pkgID = none ∨ artID = none)
    (h : ingestHasSbomAttach db spec pkgID artID incl = .ok (i, db1))
    (hlen : (db1.sboms.filter (fun r => r.uri == spec.uri)).length = 1) :
    ∀ db2 : DB, db2.pkgVersions = db.pkgVersions → db2.artifacts = db.artifacts →
      db2.dependencies = db.dependencies → db2.occurrences = db.occurrences →
      db2.sboms = db1.sboms →
      ingestHasSbomAttach db2 spec pkgID artID incl = .ok (i, db2) := by
  intro db2 hpv hart hdep hocc hsb
  simp only [ingestHasSbomAttach] at h ⊢
  cases h1 : resolveIncludedPackages db (SortAndRemoveDups incl.packages) with
  | error e => simp [h1] at h
  | panic e => simp [h1] at h
  | ok pkgIDs =>
    simp only [h1] at h
    rw [resolveIncludedPackages_stable hpv _ _ h1]
    cases h2 : resolveIncludedArtifacts db (SortAndRemoveDups incl.artifacts) with
    | error e => simp [h2] at h
    | panic e => simp [h2] at h
    | ok artIDs =>
      simp only [h2] at h
      rw [resolveIncludedArtifacts_stable hart _ _ h2]
      cases h3 : resolveIncludedDependencies db (SortAndRemoveDups incl.dependencies) with
      | error e => simp [h3] at h
      | panic e => simp [h3] at h
      | ok depIDs =>
        simp only [h3] at h
        rw [resolveIncludedDependencies_stable hdep _ _ h3]
        cases h4 : resolveIncludedOccurrences db (SortAndRemoveDups incl.occurrences) with
        | error e => simp [h4] at h
        | panic e => simp [h4] at h
        | ok occIDs =>
          simp only [h4] at h
          rw [resolveIncludedOccurrences_stable hocc _ _ h4]
          exact sbomUpsertStep_stable hexcl rfl h hlen db2 hsb

end Guac


namespace Guac

lemma find?_append_some {α : Type} {P : α → Bool} {l m : List α} {r : α}
    (h : l.find? P = some r) : (l ++ m).find? P = some r := by
  rw [List.find?_append, h]
  rfl

lemma getPkgVersion_ok_version {db : DB} {p : PkgInput} {i : Nat} {db1 : DB}
    (h : getPkgVersion db p = .ok (i, db1)) : ∃ v, p.version = some v := by
  cases hv : p.version with
  | none => simp [getPkgVersion, hv] at h
  | some v => exact ⟨v, rfl⟩

lemma getPkgVersion_ok_find {db : DB} {p : PkgInput} {i : Nat} {db1 : DB}
    (h : getPkgVersion db p = .ok (i, db1)) :
    db1.pkgVersions.find? (fun r => r.pkg == p) = some ⟨i, p⟩ := by
  cases hv : p.version with
  | none => simp [getPkgVersion, hv] at h
  | some v =>
    simp only [getPkgVersion, hv] at h
    cases hf : db.pkgVersions.find? (fun r => r.pkg == p) with
    | some r =>
      simp only [hf] at h
      obtain ⟨hi, hdb⟩ := by simpa using h
      have hrp : r.pkg = p := by simpa using List.find?_some hf
      have hr : r = ⟨i, p⟩ := by
        cases r with
        | mk rid rpkg => simp_all
      rw [← hdb, hf, hr]
    | none =>
      simp only [hf] at h
      obtain ⟨hi, hdb⟩ := by simpa using h
      rw [← hdb]
      show List.find? (fun r : PkgVersionRow => r.pkg == p)
        (db.pkgVersions ++ [(⟨db.nextID, p⟩ : PkgVersionRow)]) = some (⟨i, p⟩ : PkgVersionRow)
      rw [List.find?_append, hf]
      simp [hi]

lemma getPkgVersion_ok_extends {db : DB} {p : PkgInput} {i : Nat} {db1 : DB}
    (h : getPkgVersion db p = .ok (i, db1)) :
    ∃ ext, db1.pkgVersions = db.pkgVersions ++ ext := by
  cases hv : p.version with
  | none => simp [getPkgVersion, hv] at h
  | some v =>
    simp only [getPkgVersion, hv] at h
    cases hf : db.pkgVersions.find? (fun r => r.pkg == p) with
    | some r =>
      simp only [hf] at h
      obtain ⟨hi, hdb⟩ := by simpa using h
      exact ⟨[], by rw [← hdb]; simp⟩
    | none =>
      simp only [hf] at h
      obtain ⟨hi, hdb⟩ := by simpa using h
      exact ⟨[⟨db.nextID, p⟩], by rw [← hdb]⟩

lemma getPkgVersion_of_find {db2 : DB} {p : PkgInput} {i : Nat}
    (hv : ∃ v, p.version = some v)
    (hf : db2.pkgVersions.find? (fun r => r.pkg == p) = some ⟨i, p⟩) :
    getPkgVersion db2 p = .ok (i, db2) := by
  obtain ⟨v, hv⟩ := hv
  simp [getPkgVersion, hv, hf]

end Guac

namespace Guac

lemma ingestOccurrenceTX_stable {db : DB} {subj : PackageOrSourceInput}
    {art : ArtifactInput} {spec : IsOccurrenceInputSpec} {oid : Nat} {db2 : DB}
    (h : ingestOccurrenceTX db subj art spec = .ok (oid, db2)) :
    ingestOccurrenceTX db2 subj art spec = .ok (oid, db2)
      ∧ db2.occurrences.length ≤ db.occurrences.length + 1 := by
  simp only [ingestOccurrenceTX] at h ⊢
  cases hart : onlyRow "artifact" (db.artifacts.filter (artifactQueryInputPredicates art)) with
  | error e => simp [hart] at h
  | panic e => simp [hart] at h
  | ok artRec =>
    simp only [hart] at h
    cases hsp : subj.package with
    | some pin =>
      simp only [hsp] at h
      cases hg : getPkgVersion db pin with
      | error e => simp [hg] at h
      | panic e => simp [hg] at h
      | ok pr =>
        obtain ⟨pid, db1⟩ := pr
        simp only [hg] at h
        have hpair : occUpsertUpdateNewValues db1
            { id := 0, artifactID := artRec.id, packageID := some pid,
              sourceID := none, justification := spec.justification,
              origin := spec.origin, collector := spec.collector } = (oid, db2) := by
          simpa using h
        obtain ⟨hga, hgn, hgs, hgo, hgd, hgb⟩ := getPkgVersion_ok_fields hg
        obtain ⟨hua, huv, hun, hus, hud, hub, hulen⟩ := occUpsert_fields hpair
        have hfa : db2.artifacts = db.artifacts := by rw [hua, hga]
        rw [hfa]
        simp only [hart, hsp]
        simp only [getPkgVersion_ok_stable hg db2 (by rw [huv])]
        constructor
        · have := occUpsert_stable (Or.inr rfl) hpair db2 rfl
          rw [this]
        · calc db2.occurrences.length ≤ db1.occurrences.length + 1 := hulen
            _ = db.occurrences.length + 1 := by rw [hgo]
    | none =>
      simp only [hsp] at h
      cases hss : subj.source with
      | some sin =>
        simp only [hss] at h
        cases hu : upsertSource db sin with
        | error e => simp [hu] at h
        | panic e => simp [hu] at h
        | ok pr =>
          obtain ⟨sid, db1⟩ := pr
          simp only [hu] at h
          have hpair : occUpsertUpdateNewValues db1
              { id := 0, artifactID := artRec.id, packageID := none,
                sourceID := some sid, justification := spec.justification,
                origin := spec.origin, collector := spec.collector } = (oid, db2) := by
            simpa using h
          obtain ⟨hga, hgv, hgn, hgo, hgd, hgb⟩ := upsertSource_ok_fields hu
          obtain ⟨hua, huv, hun, hus, hud, hub, hulen⟩ := occUpsert_fields hpair
          have hfa : db2.artifacts = db.artifacts := by rw [hua, hga]
          rw [hfa]
          simp only [hart, hsp, hss]
          simp only [upsertSource_ok_stable hu db2 (by rw [hus])]
          constructor
          · have := occUpsert_stable (Or.inl rfl) hpair db2 rfl
            rw [this]
          · calc db2.occurrences.length ≤ db1.occurrences.length + 1 := hulen
              _ = db.occurrences.length + 1 := by rw [hgo]
      | none => simp [hss] at h

end Guac

namespace Guac

lemma ingestDependencyTX_stable {db : DB} {pkg depPkg : PkgInput} {mt : MatchFlags}
    {dep : IsDependencyInputSpec} {rid : Nat} {db2 : DB}
    (h : ingestDependencyTX db pkg depPkg mt dep = .ok (rid, db2)) :
    ingestDependencyTX db2 pkg depPkg mt dep = .ok (rid, db2)
      ∧ db2.dependencies.length ≤ db.dependencies.length + 1 := by
  simp only [ingestDependencyTX] at h ⊢
  cases hg : getPkgVersion db pkg with
  | error e => simp [hg] at h
  | panic e => simp [hg] at h
  | ok pr =>
    obtain ⟨pid, db1⟩ := pr
    simp only [hg] at h
    obtain ⟨hga, hgn, hgs, hgo, hgd, hgb⟩ := getPkgVersion_ok_fields hg
    cases hmt : mt.pkg with
    | allVersions =>
      simp only [hmt] at h ⊢
      cases hn : getPkgName db1 depPkg with
      | error e => simp [hn] at h
      | panic e => simp [hn] at h
      | ok nr =>
        obtain ⟨dpnID, db1'⟩ := nr
        simp only [hn] at h
        have hpair : depUpsertIgnore db1'
            { id := 0, packageID := pid, versionRange := dep.versionRange,
              dependencyType := dependencyTypeToEnum dep.dependencyType,
              justification := dep.justification, origin := dep.origin,
              collector := dep.collector,
              dependentPackageNameID := some dpnID,
              dependentPackageVersionID := none } = (rid, db2) := by
          simpa using h
        obtain ⟨hna, hnv, hns, hno, hnd, hnb⟩ := getPkgName_ok_fields hn
        obtain ⟨hua, huv, hun, hus, huo, hub, hulen⟩ := depUpsert_fields hpair
        simp only [getPkgVersion_ok_stable hg db2 (by rw [huv, hnv])]
        simp only [getPkgName_ok_stable hn db2 (by rw [hun])]
        constructor
        · have := depUpsert_stable (Or.inr rfl) hpair db2 rfl
          rw [this]
        · calc db2.dependencies.length ≤ db1'.dependencies.length + 1 := hulen
            _ = db.dependencies.length + 1 := by rw [hnd, hgd]
    | specificVersion =>
      simp only [hmt] at h ⊢
      cases hn : getPkgVersion db1 depPkg with
      | error e => simp [hn] at h
      | panic e => simp [hn] at h
      | ok nr =>
        obtain ⟨dpvID, db1'⟩ := nr
        simp only [hn] at h
        have hpair : depUpsertIgnore db1'
            { id := 0, packageID := pid, versionRange := dep.versionRange,
              dependencyType := dependencyTypeToEnum dep.dependencyType,
              justification := dep.justification, origin := dep.origin,
              collector := dep.collector,
              dependentPackageNameID := none,
              dependentPackageVersionID := some dpvID } = (rid, db2) := by
          simpa using h
        obtain ⟨hna, hnn, hns, hno, hnd, hnb⟩ := getPkgVersion_ok_fields hn
        obtain ⟨hua, huv, hun, hus, huo, hub, hulen⟩ := depUpsert_fields hpair
        have hfind1 : db1.pkgVersions.find? (fun r => r.pkg == pkg) = some ⟨pid, pkg⟩ :=
          getPkgVersion_ok_find hg
        obtain ⟨ext, hext⟩ := getPkgVersion_ok_extends hn
        have hfind2 : db2.pkgVersions.find? (fun r => r.pkg == pkg) = some ⟨pid, pkg⟩ := by
          rw [huv, hext]
          exact find?_append_some hfind1
        have hgv2 : getPkgVersion db2 pkg = .ok (pid, db2) :=
          getPkgVersion_of_find (getPkgVersion_ok_version hg) hfind2
        simp only [hgv2]
        simp only [getPkgVersion_ok_stable hn db2 (by rw [huv])]
        constructor
        · have := depUpsert_stable (Or.inl rfl) hpair db2 rfl
          rw [this]
        · calc db2.dependencies.length ≤ db1'.dependencies.length + 1 := hulen
            _ = db.dependencies.length + 1 := by rw [hnd, hgd]

end Guac

namespace Guac

lemma ingestHasSbomTX_stable {db : DB} {subj : PackageOrArtifactInput}
    {spec : HasSBOMInputSpec} {incl : HasSBOMIncludesInputSpec} {i : Nat} {db2 : DB}
    (h : ingestHasSbomTX db subj spec incl = .ok (i, db2))
    (hlen : (db2.sboms.filter (fun r => r.uri == spec.uri)).length = 1) :
    ingestHasSbomTX db2 subj spec incl = .ok (i, db2)
      ∧ db2.sboms.length ≤ db.sboms.length + 1 := by
  simp only [ingestHasSbomTX] at h ⊢
  cases hsp : subj.package with
  | some pin =>
    simp only [hsp] at h ⊢
    cases hg : getPkgVersion db pin with
    | error e => simp [hg] at h
    | panic e => simp [hg] at h
    | ok pr =>
      obtain ⟨pid, db1⟩ := pr
      simp only [hg] at h
      obtain ⟨hga, hgn, hgs, hgo, hgd, hgb⟩ := getPkgVersion_ok_fields hg
      obtain ⟨haa, hav, han, has, hao, had, halen⟩ := ingestHasSbomAttach_fields h
      simp only [getPkgVersion_ok_stable hg db2 (by rw [hav])]
      constructor
      · exact ingestHasSbomAttach_stable (Or.inr rfl) h hlen db2 hav haa had hao rfl
      · calc db2.sboms.length ≤ db1.sboms.length + 1 := halen
          _ = db.sboms.length + 1 := by rw [hgb]
  | none =>
    simp only [hsp] at h ⊢
    cases hsa : subj.artifact with
    | some ain =>
      simp only [hsa] at h ⊢
      cases hart : onlyRow "artifact" (db.artifacts.filter (artifactQueryInputPredicates ain)) with
      | error e => simp [hart] at h
      | panic e => simp [hart] at h
      | ok artRec =>
        simp only [hart] at h
        obtain ⟨haa, hav, han, has, hao, had, halen⟩ := ingestHasSbomAttach_fields h
        rw [haa]
        simp only [hart]
        constructor
        · exact ingestHasSbomAttach_stable (Or.inl rfl) h hlen db2 hav haa had hao rfl
        · exact halen
    | none => simp [hsa] at h

end Guac

namespace Guac

/-! ## Concrete example values -/

/-- Example package input. -/
def pEx : PkgInput := ⟨"npm", "", "foo", some "1.0", [], ""⟩

/-- A second, distinct example package input. -/
def pEx2 : PkgInput := ⟨"npm", "", "bar", some "2.0", [], ""⟩

/-- Example source input. -/
def srcEx : SourceInput := ⟨"git", "github", "repo", none, none⟩

/-- Example artifact input, matching the pre-ingested artifact of `dbArt`. -/
def artEx : ArtifactInput := ⟨"sha256", "abc"⟩

/-- Example occurrence metadata. -/
def occSpecEx : IsOccurrenceInputSpec := ⟨"j", "o", "c"⟩

/-- Example dependency metadata. -/
def depSpecEx : IsDependencyInputSpec := ⟨"r1", .direct, "j", "o", "c"⟩

/-- Example SBOM document with digest `d2`. -/
def sbEx1 : HasSBOMInputSpec := ⟨"u", "sha256", "d2", "dl", "o", "c", 0⟩

/-- Example SBOM document with the same URI but digest `d1`. -/
def sbEx2 : HasSBOMInputSpec := ⟨"u", "sha256", "d1", "dl", "o", "c", 0⟩

/-- Empty included sets. -/
def noIncludes : HasSBOMIncludesInputSpec := ⟨[], [], [], []⟩

/-- A store holding exactly one artifact row, id 1. -/
def dbArt : DB := { DB.empty with nextID := 2, artifacts := [⟨1, "sha256", "abc"⟩] }

/-- Project the committed store out of a successful ingestion outcome. -/
def outDB {α : Type} (fallback : DB) : Outcome (α × DB) → DB
  | .ok (_, d) => d
  | .error _ => fallback
  | .panic _ => fallback

/-- Project the returned identifier out of a successful ingestion outcome. -/
def outID {α : Type} : Outcome (α × DB) → Option α
  | .ok (s, _) => some s
  | _ => none

end Guac

namespace Guac

/-! ## Claim C1 -/

/-- The store after the first ingest of the occurrence fact used as the C1
witness. -/
def c1occDB : DB := outDB DB.empty (IngestOccurrence dbArt ⟨some pEx, none⟩ artEx occSpecEx)

/-- The identifier returned by that first ingest. -/
def c1occS : String := (outID (IngestOccurrence dbArt ⟨some pEx, none⟩ artEx occSpecEx)).getD ""

/-- The store after the first ingest of the dependency fact used as the C1
witness. -/
def c1depDB : DB := outDB DB.empty (IngestDependency DB.empty pEx pEx2 ⟨.allVersions⟩ depSpecEx)

/-- The identifier returned by that first ingest. -/
def c1depS : String := (outID (IngestDependency DB.empty pEx pEx2 ⟨.allVersions⟩ depSpecEx)).getD ""

/-- The store after the first ingest of the SBOM fact used as the C1
witness. -/
def c1sbDB : DB := outDB DB.empty (IngestHasSbom DB.empty ⟨some pEx, none⟩ sbEx2 noIncludes)

/-- The identifier returned by that first ingest. -/
def c1sbS : String := (outID (IngestHasSbom DB.empty ⟨some pEx, none⟩ sbEx2 noIncludes)).getD ""

/-- The store after ingesting, from empty, first the SBOM document `sbEx1`
(uri `u`, digest `d2`) and then `sbEx2` (same uri `u`, digest `d1`). -/
def c1dbA : DB := outDB DB.empty (IngestHasSbom DB.empty ⟨some pEx, none⟩ sbEx1 noIncludes)

/-- The same store after additionally ingesting `sbEx2` once. -/
def c1dbB : DB := outDB DB.empty (IngestHasSbom c1dbA ⟨some pEx, none⟩ sbEx2 noIncludes)

/-- C1, counterexample.  The claim fails for the SBOM relation kind: after
`sbEx1` (uri `u`, digest `d2`) has been ingested, ingesting the identical
fact `sbEx2` (uri `u`, digest `d1`) twice does not return the same
identifier on both calls — the first call succeeds, but the second call's
ignore-upsert reports a conflict and the URI-only fallback lookup finds two
rows sharing uri `u`, so it fails with a not-singular error and commits
nothing. -/
theorem C1_counterexample :
    (IngestHasSbom c1dbA ⟨some pEx, none⟩ sbEx2 noIncludes).isOk = true
  ∧ IngestHasSbom c1dbB ⟨some pEx, none⟩ sbEx2 noIncludes
      = .error "IngestHasSbom :: IngestHasSbom ::  ent: bill_of_materials not singular" :=
  ⟨by decide, by decide⟩

/-- C1 (amended).  Re-ingesting an identical fact — same subject, object and
metadata — returns the same node identifier and leaves the store exactly as
the first ingest left it (the second ingest performs no mutation), the first
ingest having added at most one relation row; for Occurrence and Dependency
this holds unconditionally, while for SBOM it additionally requires that
after the first ingest exactly one stored SBOM row carries the fact's URI,
because the conflict path re-reads the row by URI alone. -/
theorem C1_reingest_idempotent :
    (∀ (db : DB) (subj : PackageOrSourceInput) (art : ArtifactInput)
        (spec : IsOccurrenceInputSpec) (s : String) (db' : DB),
        IngestOccurrence db subj art spec = .ok (s, db') →
        IngestOccurrence db' subj art spec = .ok (s, db')
          ∧ db'.occurrences.length ≤ db.occurrences.length + 1)
  ∧ (∀ (db : DB) (pkg depPkg : PkgInput) (mt : MatchFlags)
        (dep : IsDependencyInputSpec) (s : String) (db' : DB),
        IngestDependency db pkg depPkg mt dep = .ok (s, db') →
        IngestDependency db' pkg depPkg mt dep = .ok (s, db')
          ∧ db'.dependencies.length ≤ db.dependencies.length + 1)
  ∧ (∀ (db : DB) (subj : PackageOrArtifactInput) (spec : HasSBOMInputSpec)
        (incl : HasSBOMIncludesInputSpec) (s : String) (db' : DB),
        IngestHasSbom db subj spec incl = .ok (s, db') →
        (db'.sboms.filter (fun r => r.uri == spec.uri)).length = 1 →
        IngestHasSbom db' subj spec incl = .ok (s, db')
          ∧ db'.sboms.length ≤ db.sboms.length + 1) := by
  refine ⟨?_, ?_, ?_⟩
  · intro db subj art spec s db' h
    simp only [IngestOccurrence] at h ⊢
    cases htx : ingestOccurrenceTX db subj art spec with
    | error e => simp [htx] at h
    | panic e => simp [htx] at h
    | ok pr =>
      obtain ⟨oid, db2⟩ := pr
      simp only [htx] at h
      cases hre : onlyRow "occurrence" (db2.occurrences.filter (fun r => r.id == oid)) with
      | error e => simp [hre] at h
      | panic e => simp [hre] at h
      | ok r =>
        simp only [hre] at h
        obtain ⟨hs, hdb⟩ := by simpa using h
        obtain ⟨htx2, hlen⟩ := ingestOccurrenceTX_stable htx
        subst hdb
        constructor
        · simp only [htx2, hre]
          rw [hs]
        · exact hlen
  · intro db pkg depPkg mt dep s db' h
    simp only [IngestDependency] at h ⊢
    cases htx : ingestDependencyTX db pkg depPkg mt dep with
    | error e => simp [htx] at h
    | panic e => simp [htx] at h
    | ok pr =>
      obtain ⟨rid, db2⟩ := pr
      simp only [htx] at h
      obtain ⟨hs, hdb⟩ := by simpa using h
      obtain ⟨htx2, hlen⟩ := ingestDependencyTX_stable htx
      subst hdb
      constructor
      · simp only [htx2]
        rw [hs]
      · exact hlen
  · intro db subj spec incl s db' h hone
    simp only [IngestHasSbom] at h ⊢
    cases htx : ingestHasSbomTX db subj spec incl with
    | error e => simp [htx] at h
    | panic e => simp [htx] at h
    | ok pr =>
      obtain ⟨sid, db2⟩ := pr
      simp only [htx] at h
      obtain ⟨hs, hdb⟩ := by simpa using h
      subst hdb
      obtain ⟨htx2, hlen⟩ := ingestHasSbomTX_stable htx hone
      constructor
      · simp only [htx2]
        rw [hs]
      · exact hlen

/-- C1, witness: the amended theorem applied to one concrete fact of each
relation kind, each ingested from a concrete store. -/
theorem C1_reingest_idempotent_witness :
    (IngestOccurrence c1occDB ⟨some pEx, none⟩ artEx occSpecEx = .ok (c1occS, c1occDB)
      ∧ c1occDB.occurrences.length ≤ dbArt.occurrences.length + 1)
  ∧ (IngestDependency c1depDB pEx pEx2 ⟨.allVersions⟩ depSpecEx = .ok (c1depS, c1depDB)
      ∧ c1depDB.dependencies.length ≤ DB.empty.dependencies.length + 1)
  ∧ (IngestHasSbom c1sbDB ⟨some pEx, none⟩ sbEx2 noIncludes = .ok (c1sbS, c1sbDB)
      ∧ c1sbDB.sboms.length ≤ DB.empty.sboms.length + 1) :=
  ⟨C1_reingest_idempotent.1 dbArt ⟨some pEx, none⟩ artEx occSpecEx c1occS c1occDB (by decide),
   C1_reingest_idempotent.2.1 DB.empty pEx pEx2 ⟨.allVersions⟩ depSpecEx c1depS c1depDB (by decide),
   C1_reingest_idempotent.2.2 DB.empty ⟨some pEx, none⟩ sbEx2 noIncludes c1sbS c1sbDB
     (by decide) (by decide)⟩

end Guac

namespace Guac

/-! ## Claim C2 -/

/-- C2, counterexample.  An Occurrence input with BOTH a package and a source
subject does not fail: the call succeeds, behaving exactly as if only the
package had been given — the ambiguity is silently resolved in favour of the
package because the code checks `subject.Package != nil` first. -/
theorem C2_counterexample :
    IngestOccurrence dbArt ⟨some pEx, some srcEx⟩ artEx occSpecEx
      = IngestOccurrence dbArt ⟨some pEx, none⟩ artEx occSpecEx
  ∧ (IngestOccurrence dbArt ⟨some pEx, some srcEx⟩ artEx occSpecEx).isOk = true :=
  ⟨by decide, by decide⟩

/-- C2 (amended).  An input with zero populated subject variants fails with
an error and creates no row (the transaction rolls back, so no store state is
returned); an input with both variants populated is silently resolved in
favour of the package variant — the call behaves identically to a
package-only input, for `IngestOccurrence` (package over source) and
`IngestHasSbom` (package over artifact) alike. -/
theorem C2_subject_discriminator :
    (∀ (db : DB) (art : ArtifactInput) (spec : IsOccurrenceInputSpec),
        (IngestOccurrence db ⟨none, none⟩ art spec).isError = true)
  ∧ (∀ (db : DB) (p : PkgInput) (srcOpt : Option SourceInput) (art : ArtifactInput)
        (spec : IsOccurrenceInputSpec),
        IngestOccurrence db ⟨some p, srcOpt⟩ art spec
          = IngestOccurrence db ⟨some p, none⟩ art spec)
  ∧ (∀ (db : DB) (spec : HasSBOMInputSpec) (incl : HasSBOMIncludesInputSpec),
        (IngestHasSbom db ⟨none, none⟩ spec incl).isError = true)
  ∧ (∀ (db : DB) (p : PkgInput) (artOpt : Option ArtifactInput) (spec : HasSBOMInputSpec)
        (incl : HasSBOMIncludesInputSpec),
        IngestHasSbom db ⟨some p, artOpt⟩ spec incl
          = IngestHasSbom db ⟨some p, none⟩ spec incl) := by
  refine ⟨?_, ?_, ?_, ?_⟩
  · intro db art spec
    simp only [IngestOccurrence, ingestOccurrenceTX]
    cases hart : onlyRow "artifact" (db.artifacts.filter (artifactQueryInputPredicates art)) with
    | error e => simp [Outcome.isError]
    | panic e => exact absurd hart onlyRow_ne_panic
    | ok artRec => simp [Outcome.isError]
  · intro db p srcOpt art spec
    rfl
  · intro db spec incl
    simp [IngestHasSbom, ingestHasSbomTX, Outcome.isError]
  · intro db p artOpt spec incl
    rfl

end Guac

namespace Guac

/-! ## Claim C3 -/

/-- C3, counterexample.  A batch call whose parallel slices have mismatched
lengths is not rejected with an invalid-argument error before dispatch: with
an empty package slice and one dependency item, the dispatch loop's slice
indexing panics (index out of range). -/
theorem C3_counterexample :
    IngestDependencies DB.empty [] [] ⟨.allVersions⟩ [depSpecEx]
      = (.panic "runtime error: index out of range", DB.empty) := by
  decide

/-- C3 (amended).  The batch entry points perform no length validation at
all: when a parallel slice is shorter than the driving item slice the
dispatch loop fails with an index-out-of-range runtime panic, not an
invalid-argument error (for `IngestDependencies`, `IngestOccurrences` and
`IngestHasSBOMs` alike), and when a parallel slice is longer, the extra
entries are silently ignored. -/
theorem C3_no_length_validation :
    (∀ (db : DB) (mt : MatchFlags) (d : IsDependencyInputSpec),
        IngestDependencies db [] [] mt [d]
          = (.panic "runtime error: index out of range", db))
  ∧ (∀ (db : DB) (p : PkgInput) (o : IsOccurrenceInputSpec),
        IngestOccurrences db ⟨[p], []⟩ [] [o]
          = (.panic "runtime error: index out of range", db))
  ∧ (∀ (db : DB) (sb : HasSBOMInputSpec) (incl : HasSBOMIncludesInputSpec),
        IngestHasSBOMs db ⟨[], []⟩ [sb] [incl]
          = (.panic "runtime error: index out of range", db))
  ∧ (∀ (db : DB) (p p' dp dp' : PkgInput) (mt : MatchFlags) (d : IsDependencyInputSpec),
        IngestDependencies db [p, p'] [dp, dp'] mt [d]
          = IngestDependencies db [p] [dp] mt [d]) := by
  refine ⟨?_, ?_, ?_, ?_⟩
  · intro db mt d
    rfl
  · intro db p o
    rfl
  · intro db sb incl
    rfl
  · intro db p p' dp dp' mt d
    rfl

end Guac

namespace Guac

/-- A nil occurrence filter is the no-op selector: every stored occurrence
row is returned, unlimited. -/
lemma isOccurrence_nil_all (db : DB) : IsOccurrence db none = .ok db.occurrences := by
  simp only [IsOccurrence]
  rw [List.filter_eq_self.mpr]
  intro a _
  rfl

/-- A store holding one dependency row (id 3) and its package nodes. -/
def dbDep : DB :=
  { nextID := 4, artifacts := [], pkgVersions := [⟨1, pEx⟩],
    pkgNames := [⟨2, "npm", "", "bar"⟩], sources := [], occurrences := [],
    dependencies := [⟨3, 1, "r1", .DIRECT, "j", "o", "c", some 2, none⟩],
    sboms := [] }

/-! ## Claim C4 -/

/-- C4, counterexample.  With one dependency stored, `IsDependency` under a
nil filter returns the empty list — not every stored relation — and
`HasSBOM` under a nil filter dereferences the nil spec and panics. -/
theorem C4_counterexample :
    IsDependency dbDep none = .ok []
  ∧ dbDep.dependencies ≠ []
  ∧ HasSBOM dbDep none
      = .panic "runtime error: invalid memory address or nil pointer dereference" :=
  ⟨by decide, by decide, by decide⟩

/-- C4 (amended).  A nil filter means "match all" only for `IsOccurrence`;
`IsDependency` short-circuits a nil spec to `nil, nil` — an empty result
with no error — and `HasSBOM` dereferences the nil spec pointer while
building its predicate list, a runtime panic. -/
theorem C4_nil_filter :
    (∀ db : DB, IsOccurrence db none = .ok db.occurrences)
  ∧ (∀ db : DB, IsDependency db none = .ok [])
  ∧ (∀ db : DB, HasSBOM db none
      = .panic "runtime error: invalid memory address or nil pointer dereference") := by
  refine ⟨isOccurrence_nil_all, ?_, ?_⟩
  · intro db
    rfl
  · intro db
    rfl

end Guac

namespace Guac

/-! ## Claim C5 -/

/-- A store holding `MaxPageSize + 1` occurrence rows. -/
def dbManyOcc : DB :=
  { nextID := MaxPageSize + 2, artifacts := [], pkgVersions := [], pkgNames := [],
    sources := [], dependencies := [], sboms := [],
    occurrences := (List.range (MaxPageSize + 1)).map
      (fun i => ⟨i + 1, 0, none, none, "", "", ""⟩) }

set_option maxRecDepth 4000 in
/-- C5, counterexample.  `IsOccurrence` applies no `Limit`: on a store with
`MaxPageSize + 1` occurrence rows a nil-filter query returns all of them,
exceeding the page cap. -/
theorem C5_counterexample :
    IsOccurrence dbManyOcc none = .ok dbManyOcc.occurrences
  ∧ MaxPageSize < dbManyOcc.occurrences.length := by
  constructor
  · exact isOccurrence_nil_all dbManyOcc
  · show MaxPageSize < ((List.range (MaxPageSize + 1)).map
      (fun i => (⟨i + 1, 0, none, none, "", "", ""⟩ : OccRow))).length
    rw [List.length_map, List.length_range]
    exact Nat.lt_succ_self _

/-- C5 (amended).  `IsDependency` and `HasSBOM` cap their result lists at
`MaxPageSize`; `IsOccurrence` applies no cap (see the counterexample). -/
theorem C5_page_cap :
    (∀ (db : DB) (spec : Option IsDependencySpec) (out : List DepRow),
        IsDependency db spec = .ok out → out.length ≤ MaxPageSize)
  ∧ (∀ (db : DB) (spec : Option HasSBOMSpec) (out : List SbomRow),
        HasSBOM db spec = .ok out → out.length ≤ MaxPageSize) := by
  constructor
  · intro db spec out h
    cases spec with
    | none =>
      simp only [IsDependency] at h
      have hout : [] = out := by simpa using h
      rw [← hout]
      simp
    | some s =>
      simp only [IsDependency] at h
      have hout : ((sortRowsBy (fun r => r.id)
          (db.dependencies.filter (isDependencyQuery db (some s)))).take MaxPageSize) = out := by
        simpa using h
      rw [← hout, List.length_take]
      exact min_le_left _ _
  · intro db spec out h
    cases spec with
    | none => simp [HasSBOM] at h
    | some s =>
      simp only [HasSBOM] at h
      have hout : ((db.sboms.filter (hasSBOMQuery db s)).take MaxPageSize) = out := by
        simpa using h
      rw [← hout, List.length_take]
      exact min_le_left _ _

/-- An all-empty SBOM filter spec. -/
def hsSpecAll : HasSBOMSpec :=
  ⟨none, none, none, none, none, none, none, none, none, [], [], []⟩

/-- C5, witness: the cap applied to concrete queries on the one-dependency
store. -/
theorem C5_page_cap_witness :
    ([] : List DepRow).length ≤ MaxPageSize
  ∧ ([] : List SbomRow).length ≤ MaxPageSize :=
  ⟨C5_page_cap.1 dbDep none [] (by decide),
   C5_page_cap.2 dbDep (some hsSpecAll) [] (by decide)⟩

end Guac

namespace Guac

/-! ## Claim C6 -/

lemma ingestHasSbomAttach_missing_dep {db : DB} {spec : HasSBOMInputSpec}
    {pkgID artID : Option Nat} {depID : Nat}
    (hno : ∀ r ∈ db.dependencies, r.id ≠ depID) :
    ingestHasSbomAttach db spec pkgID artID ⟨[], [], [depID], []⟩
      = .error ("IngestHasSbom" ++ " :: "
          ++ "includes.Dependencies must be a valid IsDependency ID") := by
  have h1 : SortAndRemoveDups [depID] = [depID] := by
    simp [SortAndRemoveDups, insertSorted]
  have hfil : db.dependencies.filter (fun r => r.id == depID) = [] := by
    rw [List.filter_eq_nil_iff]
    intro a ha
    simpa using hno a ha
  simp only [ingestHasSbomAttach, h1]
  simp only [show SortAndRemoveDups [] = [] from rfl]
  simp only [resolveIncludedPackages, resolveIncludedArtifacts,
    resolveIncludedDependencies, hfil, onlyRow]

/-- C6 (amended).  An SBOM ingest whose included-dependency list holds an
identifier that resolves to no dependency row fails with a not-found error
that names the included set ("includes.Dependencies must be a valid
IsDependency ID") but NOT the failing identifier, and commits no SBOM row —
the error return carries no store state, the embedding of the transaction
rollback. -/
theorem C6_included_validation :
    ∀ (db : DB) (p : PkgInput) (v : String) (spec : HasSBOMInputSpec) (depID : Nat),
      p.version = some v →
      (∀ r ∈ db.dependencies, r.id ≠ depID) →
      IngestHasSbom db ⟨some p, none⟩ spec ⟨[], [], [depID], []⟩
        = .error "IngestHasSbom :: IngestHasSbom :: includes.Dependencies must be a valid IsDependency ID" := by
  intro db p v spec depID hv hno
  simp only [IngestHasSbom, ingestHasSbomTX]
  simp only [getPkgVersion, hv]
  cases hf : db.pkgVersions.find? (fun r => r.pkg == p) with
  | some r =>
    simp only [hf]
    rw [ingestHasSbomAttach_missing_dep hno]
    rfl
  | none =>
    simp only [hf]
    have hno' : ∀ r ∈ (DB.mk (db.nextID + 1) db.artifacts
        (db.pkgVersions ++ [(⟨db.nextID, p⟩ : PkgVersionRow)]) db.pkgNames db.sources
        db.occurrences db.dependencies db.sboms).dependencies, r.id ≠ depID := hno
    rw [ingestHasSbomAttach_missing_dep hno']
    rfl

/-- C6, witness: the amended theorem applied to the one-dependency store and
the unresolvable included-dependency identifier 57. -/
theorem C6_included_validation_witness :
    IngestHasSbom dbDep ⟨some pEx, none⟩ sbEx1 ⟨[], [], [57], []⟩
      = .error "IngestHasSbom :: IngestHasSbom :: includes.Dependencies must be a valid IsDependency ID" :=
  C6_included_validation dbDep pEx "1.0" sbEx1 57 (by decide) (by decide)

/-- Whether `pat` occurs as a contiguous subsequence of `l`. -/
def listContainsSeq {α : Type} [DecidableEq α] (pat : List α) : List α → Bool
  | [] => pat.isEmpty
  | x :: xs => pat.isPrefixOf (x :: xs) || listContainsSeq pat xs

/-- Whether `pat` occurs as a substring of `s`. -/
def strContains (s pat : String) : Bool :=
  listContainsSeq pat.data s.data

/-- C6, counterexample.  The not-found error does not name the failing
identifier: two different unresolvable identifiers (57 and 99) produce the
bit-for-bit identical error message, and the decimal rendering of the
identifier does not occur anywhere in it. -/
theorem C6_counterexample :
    IngestHasSbom DB.empty ⟨some pEx, none⟩ sbEx1 ⟨[], [], [57], []⟩
      = IngestHasSbom DB.empty ⟨some pEx, none⟩ sbEx1 ⟨[], [], [99], []⟩
  ∧ (IngestHasSbom DB.empty ⟨some pEx, none⟩ sbEx1 ⟨[], [], [57], []⟩).isError = true
  ∧ strContains
      "IngestHasSbom :: IngestHasSbom :: includes.Dependencies must be a valid IsDependency ID"
      "57" = false :=
  ⟨by decide, by decide, by decide⟩

end Guac

namespace Guac

/-! ## Claim C7 -/

/-- Thread a list of items through consecutive successful ingestions,
returning the resulting store; `none` when some item fails. -/
def runAll {ι : Type} (f : DB → ι → Outcome (String × DB)) : DB → List ι → Option DB
  | db, [] => some db
  | db, x :: xs =>
    match f db x with
    | .ok (_, db') => runAll f db' xs
    | .error _ => none
    | .panic _ => none

/-- C7.  The batch dispatch loop is fail-fast: when the items before `bad`
all succeed and `bad` fails with error `e`, the whole batch reports
`.error e` — no partial identifier list is returned — while the store keeps
the transactions already committed by the successful items.
`IngestOccurrences` and `IngestDependencies` both run their items through
`batchRun`. -/
theorem C7_fail_fast :
    ∀ {ι : Type} (f : DB → ι → Outcome (String × DB)) (db dbk : DB) (i : Nat)
      (acc : List String) (done : List ι) (bad : ι) (rest : List ι) (e : String),
      runAll f db done = some dbk →
      f dbk bad = .error e →
      batchRun f db i acc (done ++ bad :: rest) = (.error e, dbk) := by
  intro ι f db dbk i acc done bad rest e hdone hbad
  induction done generalizing db i acc with
  | nil =>
    have hdb : db = dbk := by simpa [runAll] using hdone
    subst hdb
    simp only [List.nil_append, batchRun, hbad]
  | cons x xs ih =>
    simp only [runAll] at hdone
    cases hx : f db x with
    | ok pr =>
      obtain ⟨s, db'⟩ := pr
      rw [hx] at hdone
      simp only [List.cons_append, batchRun, hx]
      exact ih db' (i + 1) (listSet acc i s) hdone
    | error e' => rw [hx] at hdone; simp at hdone
    | panic e' => rw [hx] at hdone; simp at hdone

/-- C7, witness: a one-item occurrence batch whose single item fails (its
artifact is not ingested) reports the item's error and the untouched
store. -/
theorem C7_fail_fast_witness :
    batchRun (fun dbx it => IngestOccurrence dbx it.1 it.2.1 it.2.2) DB.empty 0 [""]
        [((⟨some pEx, none⟩ : PackageOrSourceInput), artEx, occSpecEx)]
      = (.error "IngestOccurrence :: ent: artifact not found", DB.empty) :=
  C7_fail_fast (fun dbx it => IngestOccurrence dbx it.1 it.2.1 it.2.2) DB.empty DB.empty 0
    [""] [] (⟨some pEx, none⟩, artEx, occSpecEx) [] _ (by decide) (by decide)

end Guac

namespace Guac

/-! ## Claim C8 -/

lemma listSet_length {α : Type} (l : List α) (n : Nat) (a : α) :
    (listSet l n a).length = l.length := by
  induction l generalizing n with
  | nil => rfl
  | cons x xs ih =>
    cases n with
    | zero => rfl
    | succ m => simp [listSet, ih]

lemma listSet_take_succ {α : Type} :
    ∀ (l : List α) (i : Nat) (a : α), i < l.length →
      (listSet l i a).take (i + 1) = l.take i ++ [a] := by
  intro l
  induction l with
  | nil => intro i a h; simp at h
  | cons x xs ih =>
    intro i a h
    cases i with
    | zero => rfl
    | succ m =>
      simp only [listSet, List.take_succ_cons, List.cons_append]
      rw [ih m a (by simpa using h)]

/-- The spec's batch-ordering contract (§5, refinement reference written
from the spec's words, not from the source): run the items strictly in input
order and collect one identifier per item, in that order. -/
def batchSeqSpec {ι : Type} (f : DB → ι → Outcome (String × DB)) :
    DB → List ι → Outcome (List String) × DB
  | db, [] => (.ok [], db)
  | db, item :: rest =>
    match f db item with
    | .ok (s, db') =>
      match batchSeqSpec f db' rest with
      | (.ok l, dbf) => (.ok (s :: l), dbf)
      | other => other
    | .error e => (.error e, db)
    | .panic e => (.panic e, db)

lemma batchRun_ok_in_order {ι : Type} (f : DB → ι → Outcome (String × DB)) :
    ∀ (items : List ι) (db : DB) (i : Nat) (acc : List String) (out : List String) (dbf : DB),
      acc.length = i + items.length →
      batchRun f db i acc items = (.ok out, dbf) →
      ∃ l, batchSeqSpec f db items = (.ok l, dbf)
        ∧ out = acc.take i ++ l ∧ l.length = items.length := by
  intro items
  induction items with
  | nil =>
    intro db i acc out dbf hlen h
    obtain ⟨hout, hdb⟩ : acc = out ∧ db = dbf := by simpa [batchRun] using h
    rw [List.length_nil] at hlen
    refine ⟨[], by simp [batchSeqSpec, hdb], ?_, rfl⟩
    rw [← hout, List.append_nil]
    have hi : i = acc.length := by omega
    rw [hi, List.take_length]
  | cons x xs ih =>
    intro db i acc out dbf hlen h
    rw [List.length_cons] at hlen
    simp only [batchRun] at h
    cases hx : f db x with
    | ok pr =>
      obtain ⟨s, db'⟩ := pr
      rw [hx] at h
      have hlen' : (listSet acc i s).length = (i + 1) + xs.length := by
        rw [listSet_length]
        omega
      obtain ⟨l, hseq, hout, hllen⟩ := ih db' (i + 1) (listSet acc i s) out dbf hlen' h
      refine ⟨s :: l, ?_, ?_, by simp [hllen]⟩
      · simp only [batchSeqSpec, hx, hseq]
      · rw [hout, listSet_take_succ acc i s (by omega)]
        simp
    | error e => rw [hx] at h; simp at h
    | panic e => rw [hx] at h; simp at h

lemma dependencyItems_length {pkgs depPkgs : List PkgInput} :
    ∀ (deps : List IsDependencyInputSpec) (i : Nat)
      (items : List (PkgInput × PkgInput × IsDependencyInputSpec)),
      dependencyItems pkgs depPkgs i deps = .ok items → items.length = deps.length := by
  intro deps
  induction deps with
  | nil =>
    intro i items h
    have : ([] : List (PkgInput × PkgInput × IsDependencyInputSpec)) = items := by
      simpa [dependencyItems] using h
    simp [← this]
  | cons d rest ih =>
    intro i items h
    simp only [dependencyItems] at h
    cases hp : pkgs[i]? with
    | none => rw [hp] at h; simp at h
    | some p =>
      rw [hp] at h
      cases hdp : depPkgs[i]? with
      | none => rw [hdp] at h; simp at h
      | some dp =>
        rw [hdp] at h
        cases hr : dependencyItems pkgs depPkgs (i + 1) rest with
        | ok items' =>
          rw [hr] at h
          have : (p, dp, d) :: items' = items := by simpa using h
          rw [← this]
          simp [ih (i + 1) items' hr]
        | error e => rw [hr] at h; simp at h
        | panic e => rw [hr] at h; simp at h

/-- C8.  A successful `IngestDependencies` call refines the spec's in-order
contract: the returned identifier slice is exactly the in-input-order
collection of the per-item identifiers (`batchSeqSpec`), and has one entry
per input item — the index-addressed write-back (`models[index] = id`)
reproduces input order. -/
theorem C8_batch_output_order :
    ∀ (db dbf : DB) (pkgs depPkgs : List PkgInput) (mt : MatchFlags)
      (deps : List IsDependencyInputSpec) (out : List String),
      IngestDependencies db pkgs depPkgs mt deps = (.ok out, dbf) →
      ∃ items, dependencyItems pkgs depPkgs 0 deps = .ok items
        ∧ batchSeqSpec (fun dbx it => IngestDependency dbx it.1 it.2.1 mt it.2.2) db items
            = (.ok out, dbf)
        ∧ out.length = deps.length := by
  intro db dbf pkgs depPkgs mt deps out h
  simp only [IngestDependencies] at h
  cases hit : dependencyItems pkgs depPkgs 0 deps with
  | error e => rw [hit] at h; simp at h
  | panic e => rw [hit] at h; simp at h
  | ok items =>
    rw [hit] at h
    have hilen : items.length = deps.length := dependencyItems_length deps 0 items hit
    have hlen : (List.replicate deps.length "").length = 0 + items.length := by
      simp [hilen]
    obtain ⟨l, hseq, hout, hllen⟩ := batchRun_ok_in_order _ items db 0
      (List.replicate deps.length "") out dbf hlen h
    refine ⟨items, rfl, ?_, ?_⟩
    · rw [hseq]
      congr 1
      rw [hout]
      simp
    · rw [hout]
      simp [hllen, hilen]

/-- The concrete two-item dependency batch used as the C8 witness. -/
def c8res : Outcome (List String) × DB :=
  IngestDependencies DB.empty [pEx, pEx2] [pEx2, pEx] ⟨.specificVersion⟩ [depSpecEx, depSpecEx]

/-- Its returned identifier list. -/
def c8out : List String :=
  match c8res.1 with
  | .ok l => l
  | _ => []

/-- C8, witness: the theorem applied to a concrete successful two-item
batch. -/
theorem C8_batch_output_order_witness :
    ∃ items, dependencyItems [pEx, pEx2] [pEx2, pEx] 0 [depSpecEx, depSpecEx] = .ok items
      ∧ batchSeqSpec
          (fun dbx it => IngestDependency dbx it.1 it.2.1 (⟨.specificVersion⟩ : MatchFlags) it.2.2)
          DB.empty items = (.ok c8out, c8res.2)
      ∧ c8out.length = [depSpecEx, depSpecEx].length :=
  C8_batch_output_order DB.empty c8res.2 [pEx, pEx2] [pEx2, pEx] ⟨.specificVersion⟩
    [depSpecEx, depSpecEx] c8out (by decide)

end Guac

namespace Guac

/-! ## Claim C9 -/

/-- C9.  The SBOM ignore-upsert and its fallback, exactly as `sbom.go` lines
203-221 wire them: (1) a row matching the scoped conflict target makes the
`DoNothing` upsert report the no-row signal (`sql.ErrNoRows`); (2) on that
signal the fallback re-reads by URI alone — whichever row the URI-only
filter singles out is returned, its other conflict columns ignored — and the
store is untouched; (3) any other upsert error is wrapped and propagated;
(4) composed into `IngestHasSbom`: when a conflicting row exists and the
fact's URI singles out one stored row, the call returns that row's
identifier with the store unchanged. -/
theorem C9_sbom_uri_fallback :
    (∀ (db : DB) (cand : SbomRow),
        db.sboms.any (sbomConflictWhere cand) = true →
        sbomDoNothingUpsert db cand = .error .noRows)
  ∧ (∀ (db : DB) (uri : String) (r : SbomRow),
        db.sboms.filter (fun x => x.uri == uri) = [r] →
        sbomConflictFallback db uri (.error .noRows) = .ok (r.id, db))
  ∧ (∀ (db : DB) (uri m : String),
        sbomConflictFallback db uri (.error (.store m))
          = .error ("IngestHasSbom" ++ ": " ++ m))
  ∧ (∀ (db : DB) (p : PkgInput) (prow : PkgVersionRow) (v : String)
        (spec : HasSBOMInputSpec) (r : SbomRow),
        p.version = some v →
        db.pkgVersions.find? (fun x => x.pkg == p) = some prow →
        db.sboms.any (sbomConflictWhere (sbomCandidate spec (some prow.id) none [] [] [] [])) = true →
        db.sboms.filter (fun x => x.uri == spec.uri) = [r] →
        IngestHasSbom db ⟨some p, none⟩ spec ⟨[], [], [], []⟩
          = .ok (toString r.id, db)) := by
  refine ⟨?_, ?_, ?_, ?_⟩
  · intro db cand hany
    simp only [sbomDoNothingUpsert]
    have hsome : (db.sboms.find? (sbomConflictWhere cand)).isSome := by
      rw [List.find?_isSome]
      simpa using hany
    obtain ⟨w, hw⟩ := Option.isSome_iff_exists.mp hsome
    rw [hw]
  · intro db uri r hfil
    simp only [sbomConflictFallback, hfil, onlyRow]
  · intro db uri m
    rfl
  · intro db p prow v spec r hv hfind hany hfil
    simp only [IngestHasSbom, ingestHasSbomTX]
    simp only [getPkgVersion, hv, hfind]
    have hup : sbomDoNothingUpsert db (sbomCandidate spec (some prow.id) none [] [] [] [])
        = .error .noRows := by
      simp only [sbomDoNothingUpsert]
      have hsome : (db.sboms.find?
          (sbomConflictWhere (sbomCandidate spec (some prow.id) none [] [] [] []))).isSome := by
        rw [List.find?_isSome]
        simpa using hany
      obtain ⟨w, hw⟩ := Option.isSome_iff_exists.mp hsome
      rw [hw]
    have hattach : ingestHasSbomAttach db spec (some prow.id) none ⟨[], [], [], []⟩
        = .ok (r.id, db) := by
      simp only [ingestHasSbomAttach]
      simp only [show SortAndRemoveDups [] = [] from rfl]
      simp only [resolveIncludedPackages, resolveIncludedArtifacts,
        resolveIncludedDependencies, resolveIncludedOccurrences]
      rw [hup]
      simp only [sbomConflictFallback, hfil, onlyRow]
    simp only [hattach]

/-- The stored SBOM row used by the C9 witness. -/
def sbRow1 : SbomRow := ⟨1, "u", "sha256", "d1", "dl", 0, "o", "c", some 2, none, [], [], [], []⟩

/-- A store holding the package node of `pEx` (id 2) and the SBOM row
`sbRow1`. -/
def dbSb : DB :=
  { nextID := 3, artifacts := [], pkgVersions := [⟨2, pEx⟩], pkgNames := [],
    sources := [], occurrences := [], dependencies := [], sboms := [sbRow1] }

/-- C9, witness: the four parts applied to the one-SBOM store, in which the
candidate built from `sbEx2` conflicts with `sbRow1`. -/
theorem C9_sbom_uri_fallback_witness :
    sbomDoNothingUpsert dbSb (sbomCandidate sbEx2 (some 2) none [] [] [] []) = .error .noRows
  ∧ sbomConflictFallback dbSb "u" (.error .noRows) = .ok (sbRow1.id, dbSb)
  ∧ sbomConflictFallback dbSb "u" (.error (.store "boom"))
      = .error ("IngestHasSbom" ++ ": " ++ "boom")
  ∧ IngestHasSbom dbSb ⟨some pEx, none⟩ sbEx2 ⟨[], [], [], []⟩
      = .ok (toString sbRow1.id, dbSb) :=
  ⟨C9_sbom_uri_fallback.1 dbSb (sbomCandidate sbEx2 (some 2) none [] [] [] []) (by decide),
   C9_sbom_uri_fallback.2.1 dbSb "u" sbRow1 (by decide),
   C9_sbom_uri_fallback.2.2.1 dbSb "u" "boom",
   C9_sbom_uri_fallback.2.2.2 dbSb pEx ⟨2, pEx⟩ "1.0" sbEx2 sbRow1 (by decide) (by decide)
     (by decide) (by decide)⟩

end Guac

namespace Guac

/-! ## Claim C10 -/

lemma occurrenceItems_sources_irrelevant {packs : List PkgInput} {srcs srcs' : List SourceInput}
    {arts : List ArtifactInput} (hne : packs ≠ []) :
    ∀ (occs : List IsOccurrenceInputSpec) (i : Nat),
      occurrenceItems ⟨packs, srcs⟩ arts i occs = occurrenceItems ⟨packs, srcs'⟩ arts i occs := by
  have hpos : 0 < packs.length := List.length_pos.mpr hne
  intro occs
  induction occs with
  | nil => intro i; rfl
  | cons o rest ih =>
    intro i
    simp only [occurrenceItems, hpos, if_pos]
    cases hp : packs[i]? with
    | none => rfl
    | some p =>
      simp only [Option.map_some']
      cases ha : arts[i]? with
      | none => rfl
      | some a =>
        rw [ih (i + 1)]

lemma occurrenceItems_package_subject {packs : List PkgInput} {srcs : List SourceInput}
    {arts : List ArtifactInput} (hpos : 0 < packs.length) :
    ∀ (occs : List IsOccurrenceInputSpec) (i : Nat)
      (items : List (PackageOrSourceInput × ArtifactInput × IsOccurrenceInputSpec)),
      occurrenceItems ⟨packs, srcs⟩ arts i occs = .ok items →
      ∀ it ∈ items, it.1.source = none ∧ it.1.package.isSome = true := by
  intro occs
  induction occs with
  | nil =>
    intro i items h it hit
    have : ([] : List (PackageOrSourceInput × ArtifactInput × IsOccurrenceInputSpec)) = items := by
      simpa [occurrenceItems] using h
    rw [← this] at hit
    simp at hit
  | cons o rest ih =>
    intro i items h it hit
    simp only [occurrenceItems, hpos, if_pos] at h
    cases hp : packs[i]? with
    | none => rw [hp] at h; simp at h
    | some p =>
      rw [hp] at h
      simp only [Option.map_some'] at h
      cases ha : arts[i]? with
      | none => rw [ha] at h; simp at h
      | some a =>
        rw [ha] at h
        cases hr : occurrenceItems ⟨packs, srcs⟩ arts (i + 1) rest with
        | ok items' =>
          rw [hr] at h
          have hcons : (⟨⟨some p, none⟩, a, o⟩ :: items') = items := by simpa using h
          rw [← hcons] at hit
          rcases List.mem_cons.mp hit with hhead | htail
          · rw [hhead]
            exact ⟨rfl, rfl⟩
          · exact ih (i + 1) items' hr it htail
        | error e => rw [hr] at h; simp at h
        | panic e => rw [hr] at h; simp at h

lemma occurrenceItems_source_subject {srcs : List SourceInput} {arts : List ArtifactInput} :
    ∀ (occs : List IsOccurrenceInputSpec) (i : Nat)
      (items : List (PackageOrSourceInput × ArtifactInput × IsOccurrenceInputSpec)),
      occurrenceItems ⟨[], srcs⟩ arts i occs = .ok items →
      ∀ it ∈ items, it.1.package = none := by
  intro occs
  induction occs with
  | nil =>
    intro i items h it hit
    have : ([] : List (PackageOrSourceInput × ArtifactInput × IsOccurrenceInputSpec)) = items := by
      simpa [occurrenceItems] using h
    rw [← this] at hit
    simp at hit
  | cons o rest ih =>
    intro i items h it hit
    simp only [occurrenceItems, List.length_nil, Nat.lt_irrefl, if_false] at h
    cases hp : srcs[i]? with
    | none => rw [hp] at h; simp at h
    | some s =>
      rw [hp] at h
      simp only [Option.map_some'] at h
      cases ha : arts[i]? with
      | none => rw [ha] at h; simp at h
      | some a =>
        rw [ha] at h
        cases hr : occurrenceItems ⟨[], srcs⟩ arts (i + 1) rest with
        | ok items' =>
          rw [hr] at h
          have hcons : (⟨⟨none, some s⟩, a, o⟩ :: items') = items := by simpa using h
          rw [← hcons] at hit
          rcases List.mem_cons.mp hit with hhead | htail
          · rw [hhead]
          · exact ih (i + 1) items' hr it htail
        | error e => rw [hr] at h; simp at h
        | panic e => rw [hr] at h; simp at h

lemma option_eq_cases {α : Type} (o : Option α) : o = none ∨ ∃ a, o = some a := by
  cases o with
  | none => exact Or.inl rfl
  | some a => exact Or.inr ⟨a, rfl⟩

lemma outcome_eq_cases {α : Type} (o : Outcome α) :
    (∃ a, o = .ok a) ∨ (∃ e, o = .error e) ∨ (∃ e, o = .panic e) := by
  cases o with
  | ok a => exact Or.inl ⟨a, rfl⟩
  | error e => exact Or.inr (Or.inl ⟨e, rfl⟩)
  | panic e => exact Or.inr (Or.inr ⟨e, rfl⟩)

lemma ingestHasSBOMsLoop_packages_irrelevant {pks pks' : List PkgInput}
    {artsubs : List ArtifactInput} (hne : artsubs ≠ [])
    {incl : List HasSBOMIncludesInputSpec} :
    ∀ (sbs : List HasSBOMInputSpec) (db : DB) (i : Nat) (acc : List String),
      ingestHasSBOMsLoop db ⟨pks, artsubs⟩ incl i acc sbs
        = ingestHasSBOMsLoop db ⟨pks', artsubs⟩ incl i acc sbs := by
  have hpos : 0 < artsubs.length := List.length_pos.mpr hne
  intro sbs
  induction sbs with
  | nil => intro db i acc; rfl
  | cons sb rest ih =>
    intro db i acc
    rcases option_eq_cases (artsubs[i]?) with ha | ⟨a, ha⟩
    · simp [ingestHasSBOMsLoop, hpos, ha]
    · rcases option_eq_cases (incl[i]?) with hic | ⟨ic, hic⟩
      · simp [ingestHasSBOMsLoop, hpos, ha, hic]
      · rcases outcome_eq_cases (IngestHasSbom db ⟨none, some a⟩ sb ic) with
          ⟨⟨s, db'⟩, hr⟩ | ⟨e, hr⟩ | ⟨e, hr⟩
        · simp only [ingestHasSBOMsLoop, hpos, if_pos, ha, hic, Option.map_some', hr]
          exact ih db' (i + 1) (acc ++ [s])
        · simp [ingestHasSBOMsLoop, hpos, ha, hic, hr]
        · simp [ingestHasSBOMsLoop, hpos, ha, hic, hr]

/-- C10.  The batch subject kind is chosen once for the whole batch, not per
item: for `IngestOccurrences`, when the packages slice is non-empty every
item gets a package subject (the sources slice is never read — replacing it
changes nothing), and only when the packages slice is empty are the sources
used, every item then getting a source subject; analogously
`IngestHasSBOMs` decides once between its artifacts slice (checked first)
and its packages slice, the unused slice being ignored. -/
theorem C10_batch_subject_once :
    (∀ (db : DB) (packs : List PkgInput) (srcs srcs' : List SourceInput)
        (arts : List ArtifactInput) (occs : List IsOccurrenceInputSpec),
        packs ≠ [] →
        IngestOccurrences db ⟨packs, srcs⟩ arts occs
          = IngestOccurrences db ⟨packs, srcs'⟩ arts occs)
  ∧ (∀ (packs : List PkgInput) (srcs : List SourceInput) (arts : List ArtifactInput)
        (occs : List IsOccurrenceInputSpec) (i : Nat)
        (items : List (PackageOrSourceInput × ArtifactInput × IsOccurrenceInputSpec)),
        packs ≠ [] →
        occurrenceItems ⟨packs, srcs⟩ arts i occs = .ok items →
        ∀ it ∈ items, it.1.source = none ∧ it.1.package.isSome = true)
  ∧ (∀ (srcs : List SourceInput) (arts : List ArtifactInput)
        (occs : List IsOccurrenceInputSpec) (i : Nat)
        (items : List (PackageOrSourceInput × ArtifactInput × IsOccurrenceInputSpec)),
        occurrenceItems ⟨[], srcs⟩ arts i occs = .ok items →
        ∀ it ∈ items, it.1.package = none)
  ∧ (∀ (db : DB) (pks pks' : List PkgInput) (artsubs : List ArtifactInput)
        (sbs : List HasSBOMInputSpec) (incl : List HasSBOMIncludesInputSpec),
        artsubs ≠ [] →
        IngestHasSBOMs db ⟨pks, artsubs⟩ sbs incl
          = IngestHasSBOMs db ⟨pks', artsubs⟩ sbs incl) := by
  refine ⟨?_, ?_, ?_, ?_⟩
  · intro db packs srcs srcs' arts occs hne
    simp only [IngestOccurrences]
    rw [occurrenceItems_sources_irrelevant hne occs 0]
  · intro packs srcs arts occs i items hne h
    exact occurrenceItems_package_subject (List.length_pos.mpr hne) occs i items h
  · intro srcs arts occs i items h
    exact occurrenceItems_source_subject occs i items h
  · intro db pks pks' artsubs sbs incl hne
    simp only [IngestHasSBOMs]
    rw [ingestHasSBOMsLoop_packages_irrelevant hne sbs db 0 []]

/-- C10, witness: the four parts applied to concrete one-item batches. -/
theorem C10_batch_subject_once_witness :
    (IngestOccurrences dbArt ⟨[pEx], [srcEx]⟩ [artEx] [occSpecEx]
      = IngestOccurrences dbArt ⟨[pEx], []⟩ [artEx] [occSpecEx])
  ∧ (∀ it ∈ [((⟨some pEx, none⟩ : PackageOrSourceInput), artEx, occSpecEx)],
      it.1.source = none ∧ it.1.package.isSome = true)
  ∧ (∀ it ∈ [((⟨none, some srcEx⟩ : PackageOrSourceInput), artEx, occSpecEx)],
      it.1.package = none)
  ∧ (IngestHasSBOMs dbArt ⟨[pEx], [artEx]⟩ [sbEx1] [noIncludes]
      = IngestHasSBOMs dbArt ⟨[], [artEx]⟩ [sbEx1] [noIncludes]) :=
  ⟨C10_batch_subject_once.1 dbArt [pEx] [srcEx] [] [artEx] [occSpecEx] (by decide),
   C10_batch_subject_once.2.1 [pEx] [srcEx] [artEx] [occSpecEx] 0 _ (by decide) (by decide),
   C10_batch_subject_once.2.2.1 [srcEx] [artEx] [occSpecEx] 0 _ (by decide),
   C10_batch_subject_once.2.2.2 dbArt [pEx] [] [artEx] [sbEx1] [noIncludes] (by decide)⟩

end Guac
